import Mathlib

/-!
Verification development for the PDF-Statement-Exporter core pipeline
(transaction recognition, date normalization, template engine, exporter
feedback hook).  JavaScript/TypeScript source functions are shallowly
embedded over `List Char` strings and exact rationals; JS regular
expressions are embedded through a small backtracking engine whose
preference order (leftmost match, greedy/lazy quantifiers) mirrors the
ECMAScript one.
-/

namespace PDFStmt

/-- Shorthand: the character list of a string literal. -/
def str (s : String) : List Char := s.data

/-- Model of the character class `\s` (JS whitespace), restricted to the
ASCII whitespace characters that can occur in the statement texts. -/
def isJsSpace (c : Char) : Bool :=
  c = ' ' || c = '\t' || c = '\n' || c = '\r' || c = '\x0b' || c = '\x0c'

/-- Model of JS `String.prototype.toLowerCase` (ASCII range). -/
def jsToLower (s : List Char) : List Char := s.map Char.toLower

/-- Model of JS `String.prototype.trim`: strip whitespace at both ends. -/
def jsTrim (s : List Char) : List Char :=
  (s.dropWhile isJsSpace).reverse.dropWhile isJsSpace |>.reverse

/-- Substring containment, model of JS `String.prototype.includes`. -/
def containsSub (hay needle : List Char) : Bool :=
  needle.isPrefixOf hay ||
  match hay with
  | [] => false
  | _ :: t => containsSub t needle

/-- Model of JS `String.prototype.split` with a single-character-class
separator regex (keeps empty pieces, as JS does). -/
def jsSplitCls (sep : Char → Bool) (s : List Char) : List (List Char) :=
  match s with
  | [] => [[]]
  | c :: t =>
    if sep c then [] :: jsSplitCls sep t
    else
      match jsSplitCls sep t with
      | [] => [[c]]
      | p :: ps => (c :: p) :: ps

/-- Model of JS `String.prototype.substring(0, n)`. -/
def jsSubstringTo (n : Nat) (s : List Char) : List Char := s.take n

/-! ## Regular-expression engine

A small syntax covering every construct used by the repository's
patterns.  All repetitions in those patterns have single-character-class
bodies, which `repCls` captures directly; this keeps the matcher total
and structurally recursive. -/

/-- Regex syntax: empty, character class, sequencing, alternative,
optional (with greediness), class repetition between `lo` and `hi`
(none = unbounded) with greediness, and end-of-input anchor. -/
inductive RE where
  | eps : RE
  | cls (p : Char → Bool) : RE
  | seq (a b : RE) : RE
  | alt (a b : RE) : RE
  | opt (greedy : Bool) (a : RE) : RE
  | repCls (p : Char → Bool) (lo : Nat) (hi : Option Nat) (greedy : Bool) : RE
  | eos : RE

/-- Literal single character as a regex. -/
def RE.ch (c : Char) : RE := RE.cls (· = c)

/-- Suffixes of `s` after consuming 0, 1, … characters satisfying `p`
(in increasing order of consumption, up to the maximal run). -/
def clsSuffixes (p : Char → Bool) : List Char → List (List Char)
  | [] => [[]]
  | c :: t => (c :: t) :: (if p c then clsSuffixes p t else [])

/-- First success of a continuation along a list of intermediate
states; models the backtracking engine trying candidates in order. -/
def firstSome (k : List Char → Option α) : List (List Char) → Option α
  | [] => none
  | s :: rest => (k s).orElse fun _ => firstSome k rest

/-- Backtracking matcher in continuation style.  `run re s k` tries the
ways `re` can match a prefix of `s` in the ECMAScript preference order
(alternatives left first, greedy longest first, lazy shortest first)
and returns the first continuation success. -/
def RE.run (k : List Char → Option α) : RE → List Char → Option α
  | .eps, s => k s
  | .cls _, [] => none
  | .cls p, c :: t => if p c then k t else none
  | .seq a b, s => a.run (fun s2 => b.run k s2) s
  | .alt a b, s => (a.run k s).orElse fun _ => b.run k s
  | .opt g a, s =>
    if g then (a.run k s).orElse fun _ => k s
    else (k s).orElse fun _ => a.run k s
  | .repCls p lo hi g, s =>
    let sufs := clsSuffixes p s
    let sufs := match hi with | some h => sufs.take (h + 1) | none => sufs
    let sufs := sufs.drop lo
    firstSome k (if g then sufs.reverse else sufs)
  | .eos, s => if s.isEmpty then k s else none

/-- Length of the preferred match of `re` at the start of `s`
(none if `re` does not match at the start). -/
def matchLenAt (re : RE) (s : List Char) : Option Nat :=
  (re.run (fun rest => some rest.length) s).map (fun r => s.length - r)

/-- Model of `RegExp.prototype.test`: does `re` match anywhere in `s`? -/
def reTest (re : RE) (s : List Char) : Bool :=
  (matchLenAt re s).isSome ||
  match s with
  | [] => false
  | _ :: t => reTest re t

/-- Leftmost match of `re` in `s`: start index and length. -/
def reSearch (re : RE) (s : List Char) : Option (Nat × Nat) :=
  match matchLenAt re s with
  | some l => some (0, l)
  | none =>
    match s with
    | [] => none
    | _ :: t => (reSearch re t).map (fun r => (r.1 + 1, r.2))

/-- The leftmost matched substring of `re` in `s`; model of a
non-global `String.prototype.match` call whose relevant capture is the
whole match. -/
def reFirstMatch (re : RE) (s : List Char) : Option (List Char) :=
  (reSearch re s).map (fun r => (s.drop r.1).take r.2)

/-- Model of `String.prototype.match` with a global regex: the list of
all (whole-)matched substrings, scanning left to right; capture groups
are not returned, exactly as in ECMAScript.  An empty match advances
the scan position by one, mirroring the `lastIndex` rule. -/
def jsMatchAllFull (re : RE) : List Char → List (List Char)
  | [] => match matchLenAt re [] with
          | some _ => [[]]
          | none => []
  | c :: t =>
    match matchLenAt re (c :: t) with
    | some (l + 1) => (c :: t).take (l + 1) :: jsMatchAllFull re ((c :: t).drop (l + 1))
    | some 0 => [] :: jsMatchAllFull re t
    | none => jsMatchAllFull re t
termination_by s => s.length
decreasing_by
  all_goals simp [List.length_drop]
  all_goals omega

/-- Model of `String.prototype.replace` with a global regex and a plain
replacement string. -/
def jsReplaceAllRe (re : RE) (repl : List Char) : List Char → List Char
  | [] => match matchLenAt re [] with
          | some _ => repl
          | none => []
  | c :: t =>
    match matchLenAt re (c :: t) with
    | some (l + 1) => repl ++ jsReplaceAllRe re repl ((c :: t).drop (l + 1))
    | some 0 => repl ++ c :: jsReplaceAllRe re repl t
    | none => c :: jsReplaceAllRe re repl t
termination_by s => s.length
decreasing_by
  all_goals simp [List.length_drop]
  all_goals omega

/-- Model of `String.prototype.replace` with a plain (string) search
argument: replace the first occurrence only. -/
def jsReplaceFirstStr (needle repl : List Char) (s : List Char) : List Char :=
  if needle.isPrefixOf s then repl ++ s.drop needle.length
  else
    match s with
    | [] => []
    | c :: t => c :: jsReplaceFirstStr needle repl t

/-! ## JS number parsing (exact model over `Int`/`ℚ`) -/

/-- Decimal value of a digit list. -/
def digitsVal (s : List Char) : Nat :=
  s.foldl (fun a c => a * 10 + (c.toNat - '0'.toNat)) 0

/-- Model of `parseInt(s)` (radix 10, with the `0x` hex prefix rule);
`none` models `NaN`.  The JS result is an IEEE double; this model is
exact, which agrees with JS on every value small enough to matter for
dates (larger values are out of the valid JS time range either way). -/
def jsParseIntOpt (s : List Char) : Option Int :=
  let s := s.dropWhile isJsSpace
  let (sign, s) : Int × List Char :=
    match s with
    | '-' :: t => (-1, t)
    | '+' :: t => (1, t)
    | _ => (1, s)
  match s with
  | '0' :: 'x' :: t | '0' :: 'X' :: t =>
    let ds := t.takeWhile (fun c => c.isDigit || ('a' ≤ c && c ≤ 'f') || ('A' ≤ c && c ≤ 'F'))
    if ds.isEmpty then none
    else some (sign * (ds.foldl (fun a c =>
      a * 16 + (if c.isDigit then c.toNat - '0'.toNat
                else if 'a' ≤ c then c.toNat - 'a'.toNat + 10
                else c.toNat - 'A'.toNat + 10)) 0 : Nat))
  | _ =>
    let ds := s.takeWhile Char.isDigit
    if ds.isEmpty then none else some (sign * (digitsVal ds : Nat))

/-- Model of `parseFloat(s)`: longest valid numeric prefix as an exact
rational; `none` models `NaN`. -/
def jsParseFloat (s : List Char) : Option ℚ :=
  let s := s.dropWhile isJsSpace
  let (sign, s) : ℚ × List Char :=
    match s with
    | '-' :: t => (-1, t)
    | '+' :: t => (1, t)
    | _ => (1, s)
  let ip := s.takeWhile Char.isDigit
  let s2 := s.drop ip.length
  let (fp, s3) : List Char × List Char :=
    match s2 with
    | '.' :: t => (t.takeWhile Char.isDigit, t.drop (t.takeWhile Char.isDigit).length)
    | _ => ([], s2)
  if ip.isEmpty && fp.isEmpty then none
  else
    let mant : ℚ := (digitsVal ip : ℚ) + (digitsVal fp : ℚ) / ((10 : ℚ) ^ fp.length)
    let expo : Int :=
      match s3 with
      | 'e' :: u | 'E' :: u =>
        let (es, u2) : Int × List Char :=
          match u with
          | '-' :: v => (-1, v)
          | '+' :: v => (1, v)
          | _ => (1, u)
        let eds := u2.takeWhile Char.isDigit
        if eds.isEmpty then 0 else es * (digitsVal eds : Nat)
      | _ => 0
    some (sign * mant * (10 : ℚ) ^ expo)

/-! ## Embedded regular expressions of `pdfParser.ts` -/

/-- Character class `\d`. -/
def isDigitB (c : Char) : Bool := c.isDigit

/-- Character class `[\/\-]`. -/
def isDateSep (c : Char) : Bool := c = '/' || c = '-'

/-- The `.` metacharacter (any char except line terminators). -/
def isDotChar (c : Char) : Bool := !(c = '\n' || c = '\r')

/-- Character class `[\-\$\d,\.]` (the amount group of the generic
transaction pattern). -/
def isAmountChar (c : Char) : Bool :=
  c = '-' || c = '$' || c.isDigit || c = ',' || c = '.'

/-- Character class `[\$\d,\.]` (the optional balance group). -/
def isBalanceChar (c : Char) : Bool :=
  c = '$' || c.isDigit || c = ',' || c = '.'

/-- Right-nested sequencing of a list of regexes. -/
def RE.seqs : List RE → RE
  | [] => RE.eps
  | [r] => r
  | r :: rest => RE.seq r (RE.seqs rest)

/-- `\d{1,2}[\/\-]\d{1,2}[\/\-]\d{2,4}` — the date fragment shared by
`BANK_PATTERNS.generic.datePattern` and the alternative strategy's
per-line date search (the capture group is the whole match). -/
def datePatternRE : RE :=
  RE.seqs [RE.repCls isDigitB 1 (some 2) true, RE.cls isDateSep,
           RE.repCls isDigitB 1 (some 2) true, RE.cls isDateSep,
           RE.repCls isDigitB 2 (some 4) true]

/-- `BANK_PATTERNS.generic.transactionPattern`:
`(\d{1,2}[\/\-]\d{1,2}[\/\-]\d{2,4})\s+(.+?)\s+([\-\$\d,\.]+)(?:\s+([\$\d,\.]+))?`
(the source regex carries the `g` flag). -/
def transactionPatternRE : RE :=
  RE.seqs [datePatternRE,
           RE.repCls isJsSpace 1 none true,
           RE.repCls isDotChar 1 none false,
           RE.repCls isJsSpace 1 none true,
           RE.repCls isAmountChar 1 none true,
           RE.opt true (RE.seq (RE.repCls isJsSpace 1 none true)
                               (RE.repCls isBalanceChar 1 none true))]

/-- `([\-\$]?[\d,]+\.[\d]{2})` — the amount token regex of the
alternative (windowed) strategy (global; capture = whole match). -/
def altAmountRE : RE :=
  RE.seqs [RE.opt true (RE.cls (fun c => c = '-' || c = '$')),
           RE.repCls (fun c => c.isDigit || c = ',') 1 none true,
           RE.ch '.',
           RE.repCls isDigitB 2 (some 2) true]

/-! ## JS date model

JS `Date` values reachable from this code are midnights (the code only
ever builds dates from year/month/day components and reads back the
date part of `toISOString`), so a date value is modelled as its day
number relative to the epoch, with the host time zone taken as UTC.
The civil-calendar conversions are the standard era-based algorithms;
they are models of ECMAScript's `MakeDay`/date-field computations, not
translations of repository code. -/

/-- Days since 1970-01-01 of the civil date `(y, m, d)`; `m` is 1-based
and `d` may lie outside the month (day overflow is carried, exactly as
in ECMAScript `MakeDay`). -/
def daysFromCivil (y m d : Int) : Int :=
  let y2 := if m ≤ 2 then y - 1 else y
  let era := y2 / 400
  let yoe := y2 - era * 400
  let mp := (m + 9) % 12
  let doy := (153 * mp + 2) / 5 + d - 1
  let doe := yoe * 365 + yoe / 4 - yoe / 100 + doy
  era * 146097 + doe - 719468

/-- Civil date `(year, month, day)` of a day number (month 1-based). -/
def civilFromDays (z : Int) : Int × Int × Int :=
  let z2 := z + 719468
  let era := z2 / 146097
  let doe := z2 - era * 146097
  let yoe := (doe - doe / 1460 + doe / 36524 - doe / 146096) / 365
  let y := yoe + era * 400
  let doy := doe - (365 * yoe + yoe / 4 - yoe / 100)
  let mp := (5 * doy + 2) / 153
  let d := doy - (153 * mp + 2) / 5 + 1
  let m := if mp < 10 then mp + 3 else mp - 9
  (if m ≤ 2 then y + 1 else y, m, d)

/-- Gregorian leap-year predicate. -/
def isLeapY (y : Int) : Bool :=
  (y % 4 = 0 && y % 100 ≠ 0) || y % 400 = 0

/-- Number of days of month `m` (1-based) in year `y`. -/
def daysInMonthI (y m : Int) : Int :=
  if m = 2 then (if isLeapY y then 29 else 28)
  else if m = 4 || m = 6 || m = 9 || m = 11 then 30
  else 31

/-- The ECMAScript time-range bound in days (`8.64e15` ms). -/
def jsMaxDays : Int := 100000000

/-- Model of `new Date(year, month, day).getTime()` as a day number:
`none` models an invalid date (`NaN` argument or out-of-range result).
Includes the `0 ≤ year ≤ 99 → 1900 + year` constructor rule and the
month/day overflow normalization of `MakeDay`. -/
def mkDateDays : Option Int → Option Int → Option Int → Option Int
  | some y, some m, some d =>
    let y2 := if 0 ≤ y ∧ y ≤ 99 then y + 1900 else y
    let ym := y2 + m / 12
    let mn := m % 12
    let z := daysFromCivil ym (mn + 1) d
    if -jsMaxDays ≤ z ∧ z ≤ jsMaxDays then some z else none
  | _, _, _ => none

/-- `n % 10^w` printed as exactly `w` decimal digits (zero padded). -/
def padDigits (w : Nat) (n : Nat) : List Char :=
  match w with
  | 0 => []
  | w + 1 => padDigits w (n / 10) ++ [Char.ofNat ('0'.toNat + n % 10)]

/-- Model of `date.toISOString().split("T")[0]` for the date value
with day number `z`: `YYYY-MM-DD`, or the expanded `±YYYYYY-MM-DD`
form for years outside `[0, 9999]`. -/
def isoOfDay (z : Int) : List Char :=
  let c := civilFromDays z
  let rest := '-' :: padDigits 2 c.2.1.toNat ++ '-' :: padDigits 2 c.2.2.toNat
  if c.1 < 0 then '-' :: (padDigits 6 (-c.1).toNat ++ rest)
  else if c.1 ≤ 9999 then padDigits 4 c.1.toNat ++ rest
  else '+' :: (padDigits 6 c.1.toNat ++ rest)

/-- Helper for `jsDateParse`: given the year, parse `-MM-DD` and
validate the calendar fields and the time range. -/
def parseIsoTail (y : Int) (rest : List Char) : Option Int :=
  match rest with
  | sep1 :: m1 :: m2 :: sep2 :: d1 :: d2 :: [] =>
    if sep1 = '-' ∧ sep2 = '-' ∧
        m1.isDigit ∧ m2.isDigit ∧ d1.isDigit ∧ d2.isDigit then
      let m : Int := (digitsVal [m1, m2] : Nat)
      let d : Int := (digitsVal [d1, d2] : Nat)
      if 1 ≤ m ∧ m ≤ 12 ∧ 1 ≤ d ∧ d ≤ daysInMonthI y m then
        let z := daysFromCivil y m d
        if -jsMaxDays ≤ z ∧ z ≤ jsMaxDays then some z else none
      else none
    else none
  | _ => none

/-- Helper for `jsDateParse`: a year of exactly `w` digits (with its
sign already factored out) followed by `-MM-DD`. -/
def jsDateParseYear (w : Nat) (sign : Int) (s : List Char) : Option Int :=
  if (s.take w).length = w ∧ (s.take w).all Char.isDigit then
    if sign < 0 ∧ (digitsVal (s.take w) : Int) = 0 then none
    else parseIsoTail (sign * (digitsVal (s.take w) : Nat)) (s.drop w)
  else none

/-- Model of the UTC day of `new Date(s)` for a string `s`.  The
ECMAScript date-only interchange format (`YYYY-MM-DD`, with expanded
`±YYYYYY` years) is parsed per the specification; every other string
(whose handling ECMAScript leaves implementation-defined, beyond the
date-time forms that never arise here) is modelled as unparseable. -/
def jsDateParse (s : List Char) : Option Int :=
  match s with
  | [] => none
  | c :: rest =>
    if c = '+' then jsDateParseYear 6 1 rest
    else if c = '-' then jsDateParseYear 6 (-1) rest
    else jsDateParseYear 4 1 (c :: rest)

/-! ## `normalizeDate` (pdfParser.ts)

The direct `new Date(dateStr)` parse is a parameter `p` (its behaviour
on non-ISO strings is implementation-defined); `jsDateParse` is the
conforming instance used for concrete evaluations. -/

/-- The split/parts fallback branch of `normalizeDate`: split on `/`
or `-`, take the parts as month/day/year (expanding two-digit years),
and build a date via the `Date(y, m, d)` constructor. -/
def normalizeDateParts (dateStr : List Char) : Option Int :=
  let parts := jsSplitCls isDateSep dateStr
  if parts.length = 3 then
    let yearPart := (jsParseIntOpt (parts.getD 2 [])).map fun yp =>
      if yp < 100 then (if yp < 50 then yp + 2000 else yp + 1900) else yp
    let month := (jsParseIntOpt (parts.getD 0 [])).map (· - 1)
    let day := jsParseIntOpt (parts.getD 1 [])
    mkDateDays yearPart month day
  else none

/-- `normalizeDate(dateStr)`: try the direct parse `p`, then the
month/day/year parts fallback; on total failure return the input. -/
def normalizeDate (p : List Char → Option Int) (dateStr : List Char) : List Char :=
  match p dateStr with
  | some z => isoOfDay z
  | none =>
    match normalizeDateParts dateStr with
    | some z => isoOfDay z
    | none => dateStr

/-! ## Transaction recognizer (pdfParser.ts)

The per-description AI categorization call is a parameter
`aiCat : description → Option (category × confidence)` (`none` models a
rejected promise, recovered by the heuristic fallback). -/

/-- `type` field of a parsed transaction. -/
inductive TxType where
  | debit : TxType
  | credit : TxType
deriving DecidableEq, Repr

/-- Embedding of the `ParsedTransaction` record. -/
structure ParsedTransaction where
  date : List Char
  description : List Char
  amount : ℚ
  balance : Option ℚ
  type : TxType
  category : List Char
  confidence : ℚ
deriving DecidableEq, Repr

/-- `categorizeTransaction` — the deterministic keyword fallback. -/
def categorizeTransaction (description : List Char) : List Char :=
  let desc := jsToLower description
  if containsSub desc (str "deposit") || containsSub desc (str "salary") ||
     containsSub desc (str "payroll") || containsSub desc (str "direct dep") then
    str "Income"
  else if containsSub desc (str "grocery") || containsSub desc (str "food") ||
          containsSub desc (str "restaurant") || containsSub desc (str "dining") then
    str "Food & Dining"
  else if containsSub desc (str "gas") || containsSub desc (str "fuel") ||
          containsSub desc (str "transport") || containsSub desc (str "uber") ||
          containsSub desc (str "lyft") then
    str "Transportation"
  else if containsSub desc (str "atm") || containsSub desc (str "withdrawal") then
    str "Cash & ATM"
  else if containsSub desc (str "transfer") then
    str "Transfers"
  else if containsSub desc (str "fee") || containsSub desc (str "charge") then
    str "Fees & Charges"
  else if containsSub desc (str "payment") || containsSub desc (str "bill") ||
          containsSub desc (str "utility") || containsSub desc (str "electric") ||
          containsSub desc (str "water") || containsSub desc (str "internet") then
    str "Bills & Utilities"
  else if containsSub desc (str "shopping") || containsSub desc (str "store") ||
          containsSub desc (str "amazon") || containsSub desc (str "walmart") ||
          containsSub desc (str "target") then
    str "Shopping"
  else if containsSub desc (str "medical") || containsSub desc (str "pharmacy") ||
          containsSub desc (str "doctor") || containsSub desc (str "hospital") then
    str "Healthcare"
  else str "Other"

/-- `.replace(/[\$,]/g, "")` — strip dollar signs and commas. -/
def removeDollarComma (s : List Char) : List Char :=
  s.filter (fun c => !(c = '$' || c = ','))

/-- The `try categorizeTransactionAI … catch` block shared by both
strategies: AI result, or the default `{Other, 0.5}` object with its
`category` overwritten by the heuristic fallback. -/
def resolveCategory (aiCat : List Char → Option (List Char × ℚ))
    (description : List Char) : List Char × ℚ :=
  match aiCat description with
  | some ci => ci
  | none => (categorizeTransaction description, 0.5)

/-- One iteration of the primary (line-pattern) strategy's loop:
`line.match(pattern.transactionPattern)` (a *global* regex, so the
result is the list of whole-match strings) destructured as
`[, date, description, amount, balance]`, with the falsy-field,
`parseFloat` and `isNaN` guards of the source. -/
def parsePrimaryLine (aiCat : List Char → Option (List Char × ℚ))
    (p : List Char → Option Int) (line : List Char) : Option ParsedTransaction :=
  let ms := jsMatchAllFull transactionPatternRE line
  if ms.isEmpty then none
  else
    match ms[1]?, ms[2]?, ms[3]? with
    | some date, some description, some amount =>
      if date.isEmpty || description.isEmpty || amount.isEmpty then none
      else
        match jsParseFloat (removeDollarComma amount) with
        | none => none
        | some cleanAmount =>
          let categoryInfo := resolveCategory aiCat description
          some { date := normalizeDate p date
                 description := jsTrim description
                 amount := |cleanAmount|
                 balance := ms[4]?.bind (fun b => jsParseFloat (removeDollarComma b))
                 type := if cleanAmount < 0 then .debit else .credit
                 category := categoryInfo.1
                 confidence := categoryInfo.2 }
    | _, _, _ => none

/-- The primary strategy over the whole text (the loop of
`parseTransactions` before the fallback/sort). -/
def parseTransactionsPrimary (aiCat : List Char → Option (List Char × ℚ))
    (p : List Char → Option Int) (text : List Char) : List ParsedTransaction :=
  (jsSplitCls (· = '\n') text).filterMap (parsePrimaryLine aiCat p)

/-- The sort comparator `(a, b) => new Date(a.date).getTime() - new
Date(b.date).getTime()`, composed with the `SortCompare` rule that a
`NaN` comparator result counts as `+0`. -/
def txCompare (p : List Char → Option Int) (a b : ParsedTransaction) : ℚ :=
  match p a.date, p b.date with
  | some x, some y => (x : ℚ) - (y : ℚ)
  | _, _ => 0

/-- Stable merge step: on a tie (comparator `≤ 0`) the left element
comes first. -/
def jsMerge (cmp : α → α → ℚ) : List α → List α → List α
  | [], r => r
  | l, [] => l
  | a :: as, b :: bs =>
    if cmp a b ≤ 0 then a :: jsMerge cmp as (b :: bs)
    else b :: jsMerge cmp (a :: as) bs
termination_by l r => l.length + r.length

/-- Model of `Array.prototype.sort(cmp)`: the stable sort mandated by
ES2019, realized as a stable top-down merge sort — the algorithm family
(TimSort/merge sort) used by the mainstream engines, which also fixes
the implementation-defined order produced when the comparator is not a
consistent comparison function. -/
def jsSortBy (cmp : α → α → ℚ) : List α → List α
  | [] => []
  | [x] => [x]
  | a :: b :: rest =>
    let l := a :: b :: rest
    let n := l.length / 2
    jsMerge cmp (jsSortBy cmp (l.take n)) (jsSortBy cmp (l.drop n))
termination_by l => l.length
decreasing_by
  all_goals simp [List.length_take, List.length_drop]
  all_goals omega

/-- The look-ahead loop (`for j = 0; j < 3 …`) of the alternative
strategy, starting at window offset `j` with accumulated description
`desc`; returns `(amount, balance, description)` where the amount is
`none` for `NaN` and the initial amount value `0` is `some 0`. -/
def altLookahead (dateStr : List Char) (lines : List (List Char)) (i : Nat) :
    Nat → List Char → Option ℚ × Option ℚ × List Char
  | j, desc =>
    if j < 3 ∧ i + j < lines.length then
      let currentLine := lines.getD (i + j) []
      let amountMatch := jsMatchAllFull altAmountRE currentLine
      if amountMatch.isEmpty then
        altLookahead dateStr lines i (j + 1)
          (desc ++ ' ' :: jsTrim (jsReplaceFirstStr dateStr [] currentLine))
      else
        let amount := jsParseFloat (removeDollarComma (amountMatch.getD 0 []))
        let balance :=
          if amountMatch.length > 1 then
            jsParseFloat (removeDollarComma (amountMatch.getD 1 []))
          else none
        let description :=
          jsTrim (jsReplaceFirstStr dateStr [] (jsReplaceAllRe altAmountRE [] currentLine))
        (amount, balance, description)
    else (some 0, none, desc)
termination_by j _ => 3 - j

/-- Body of the alternative strategy's outer loop at line index `i`:
a transaction candidate, `none` if the line has no date token or the
candidate fails the `isNaN`/zero-amount/empty-description guard. -/
def altLineTx (aiCat : List Char → Option (List Char × ℚ))
    (p : List Char → Option Int) (lines : List (List Char)) (i : Nat) :
    Option ParsedTransaction :=
  let line := jsTrim (lines.getD i [])
  match reFirstMatch datePatternRE line with
  | none => none
  | some dateStr =>
    let r := altLookahead dateStr lines i 0 []
    match r.1 with
    | none => none
    | some amount =>
      if amount ≠ 0 ∧ ¬(jsTrim r.2.2).isEmpty then
        let categoryInfo := resolveCategory aiCat r.2.2
        some { date := normalizeDate p dateStr
               description := jsTrim r.2.2
               amount := |amount|
               balance := r.2.1
               type := if amount < 0 then .debit else .credit
               category := categoryInfo.1
               confidence := categoryInfo.2 }
      else none

/-- `parseTransactionsAlternative` — the windowed fallback strategy. -/
def parseTransactionsAlternative (aiCat : List Char → Option (List Char × ℚ))
    (p : List Char → Option Int) (text : List Char) : List ParsedTransaction :=
  let lines := jsSplitCls (· = '\n') text
  let transactions := (List.range lines.length).filterMap (altLineTx aiCat p lines)
  jsSortBy (txCompare p) transactions

/-- `parseTransactions` — primary strategy, falling back to the
alternative strategy when it produced nothing, then sorting by date. -/
def parseTransactions (aiCat : List Char → Option (List Char × ℚ))
    (p : List Char → Option Int) (text : List Char) : List ParsedTransaction :=
  let transactions := parseTransactionsPrimary aiCat p text
  if transactions.isEmpty then parseTransactionsAlternative aiCat p text
  else jsSortBy (txCompare p) transactions

/-! ## Template service (code.ts)

The catalogue is the `Map<string, BankTemplate>` of `TemplateService`,
modelled as an association list in insertion order (JS `Map` iteration
order).  `Date.now()`-based values (`generateTemplateId`, `new Date()`)
enter as parameters. -/

/-- `transactionIndicators` of a template's parsing configuration. -/
structure TransactionIndicators where
  creditKeywords : List (List Char)
  debitKeywords : List (List Char)

/-- `parsing` configuration of a `BankTemplate`. -/
structure ParsingConfig where
  dateFormats : List (List Char)
  amountPatterns : List RE
  descriptionPatterns : List RE
  balancePatterns : List RE
  accountNumberPattern : RE
  statementPeriodPattern : RE
  transactionIndicators : TransactionIndicators

/-- `aiInstructions` of a `BankTemplate`. -/
structure AIInstructions where
  extractionPrompt : List Char
  validationRules : List (List Char)
  categoryMappings : List (List Char × List Char)

/-- `metadata` of a `BankTemplate`. -/
structure TemplateMetadata where
  supportedFormats : List (List Char)
  language : List Char
  region : List Char
  currency : List Char
  avgAccuracy : ℚ
  sampleStatements : List (List Char)

/-- Embedding of the `BankTemplate` record (`types/bankTemplate.ts`);
timestamps are abstract `Nat` instants. -/
structure BankTemplate where
  id : List Char
  bankName : List Char
  templateName : List Char
  version : List Char
  createdAt : Nat
  updatedAt : Nat
  createdBy : List Char
  usageCount : Nat
  isVerified : Bool
  parsing : ParsingConfig
  aiInstructions : Option AIInstructions
  metadata : TemplateMetadata

/-- Embedding of `TemplateMatchResult`. -/
structure TemplateMatchResult where
  template : BankTemplate
  confidence : ℚ
  matchedFeatures : List (List Char)

/-- Embedding of the `BankStatementData` record. -/
structure BankStatementData where
  bankName : List Char
  accountNumber : List Char
  statementPeriod : List Char
  transactions : List ParsedTransaction
  openingBalance : Option ℚ
  closingBalance : Option ℚ

/-- The `Map<string, BankTemplate>` catalogue in insertion order. -/
abbrev TemplateCatalogue := List (List Char × BankTemplate)

/-- `Map.prototype.get`. -/
def catGet (c : TemplateCatalogue) (k : List Char) : Option BankTemplate :=
  (List.find? (fun e => e.1 = k) c).map (·.2)

/-- `Map.prototype.set`: an existing key keeps its position and gets
the new value, a new key is appended. -/
def catSet (c : TemplateCatalogue) (k : List Char) (v : BankTemplate) : TemplateCatalogue :=
  if (List.find? (fun e => e.1 = k) c).isSome then
    List.map (fun e => if e.1 = k then (k, v) else e) c
  else c ++ [(k, v)]

/-- `Map.prototype.values` as a list (insertion order). -/
def catValues (c : TemplateCatalogue) : List BankTemplate :=
  List.map (·.2) c

/-- `dateFormatToRegex`: the two fixed patterns, keyed by format name
("MM/DD/YYYY" and "DD/MM/YYYY" share one pattern, which is also the
fallback for unknown formats). -/
def dateFormatToRegex (format : List Char) : RE :=
  if format = str "YYYY-MM-DD" then
    RE.seqs [RE.repCls isDigitB 4 (some 4) true, RE.ch '-',
             RE.repCls isDigitB 1 (some 2) true, RE.ch '-',
             RE.repCls isDigitB 1 (some 2) true]
  else
    RE.seqs [RE.repCls isDigitB 1 (some 2) true, RE.ch '/',
             RE.repCls isDigitB 1 (some 2) true, RE.ch '/',
             RE.repCls isDigitB 4 (some 4) true]

/-- `calculateTemplateMatch(statementText, template)`: the weighted
score out of 100 (bank name 30, account pattern 20, date format 25,
transaction keywords 25/15/0), normalized to `[0,1]`. -/
def calculateTemplateMatch (statementText : List Char) (template : BankTemplate) : ℚ :=
  let score1 : ℚ :=
    if containsSub (jsToLower statementText) (jsToLower template.bankName) then 30 else 0
  let score2 : ℚ :=
    if reTest template.parsing.accountNumberPattern statementText then 20 else 0
  let score3 : ℚ :=
    if template.parsing.dateFormats.any
        (fun format => reTest (dateFormatToRegex format) statementText) then 25 else 0
  let hasCredits := template.parsing.transactionIndicators.creditKeywords.any
    (fun keyword => containsSub (jsToLower statementText) (jsToLower keyword))
  let hasDebits := template.parsing.transactionIndicators.debitKeywords.any
    (fun keyword => containsSub (jsToLower statementText) (jsToLower keyword))
  let score4 : ℚ :=
    if hasCredits && hasDebits then 25 else if hasCredits || hasDebits then 15 else 0
  let score := score1 + score2 + score3 + score4
  let maxScore : ℚ := 30 + 20 + 25 + 25
  if maxScore > 0 then score / maxScore else 0

/-- `getMatchedFeatures`. -/
def getMatchedFeatures (statementText : List Char) (template : BankTemplate) : List (List Char) :=
  (if containsSub (jsToLower statementText) (jsToLower template.bankName) then
    [str "Bank Name"] else []) ++
  (if reTest template.parsing.accountNumberPattern statementText then
    [str "Account Number Format"] else [])

/-- `findBestTemplate(statementText)`: score every catalogued template,
keep those with confidence above the 0.3 threshold, sort descending by
confidence and return the first (or `null`). -/
def findBestTemplate (c : TemplateCatalogue) (statementText : List Char) :
    Option TemplateMatchResult :=
  let candidates := (catValues c).filterMap fun template =>
    let confidence := calculateTemplateMatch statementText template
    if confidence > 3/10 then
      some ⟨template, confidence, getMatchedFeatures statementText template⟩
    else none
  (jsSortBy (fun a b => b.confidence - a.confidence) candidates).head?

/-- `updateTemplateMetrics(templateId, accuracy)`: increment usage,
recompute the running mean, re-evaluate the verification threshold and
persist.  Returns the new catalogue and the ids passed to
`updateTemplateInDB`. -/
def updateTemplateMetrics (c : TemplateCatalogue) (templateId : List Char)
    (accuracy : ℚ) (now : Nat) : TemplateCatalogue × List (List Char) :=
  match catGet c templateId with
  | none => (c, [])
  | some template =>
    let usageCount := template.usageCount + 1
    let avgAccuracy :=
      (template.metadata.avgAccuracy * ((usageCount : ℚ) - 1) + accuracy) / (usageCount : ℚ)
    let t1 : BankTemplate :=
      { template with
        usageCount := usageCount
        metadata := { template.metadata with avgAccuracy := avgAccuracy }
        updatedAt := now }
    let t2 := if t1.usageCount ≥ 10 ∧ t1.metadata.avgAccuracy ≥ 9/10 then
      { t1 with isVerified := true } else t1
    (catSet c templateId t2, [templateId])

/-- `detectDateFormats` (fixed list in the source). -/
def detectDateFormats (_text : List Char) (_transactions : List ParsedTransaction) :
    List (List Char) :=
  [str "MM/DD/YYYY", str "DD/MM/YYYY", str "YYYY-MM-DD"]

/-- `detectAmountPatterns`: `\$?([\d,]+\.?\d{0,2})` and the `€`/`£`
variants. -/
def detectAmountPatterns (_text : List Char) (_transactions : List ParsedTransaction) :
    List RE :=
  [RE.seqs [RE.opt true (RE.ch '$'), RE.repCls (fun c => c.isDigit || c = ',') 1 none true,
            RE.opt true (RE.ch '.'), RE.repCls isDigitB 0 (some 2) true],
   RE.seqs [RE.ch '€', RE.repCls (fun c => c.isDigit || c = ',') 1 none true,
            RE.opt true (RE.ch '.'), RE.repCls isDigitB 0 (some 2) true],
   RE.seqs [RE.ch '£', RE.repCls (fun c => c.isDigit || c = ',') 1 none true,
            RE.opt true (RE.ch '.'), RE.repCls isDigitB 0 (some 2) true]]

/-- `detectDescriptionPatterns`: `[A-Z\s\d\-\.]+$` (the source pattern
also anchors at `^`; the pattern is stored but never applied by any
embedded operation). -/
def detectDescriptionPatterns (_text : List Char) (_transactions : List ParsedTransaction) :
    List RE :=
  [RE.seq (RE.repCls (fun c => c.isUpper || isJsSpace c || c.isDigit || c = '-' || c = '.')
            1 none true) RE.eos]

/-- Case-insensitive literal character. -/
def RE.chI (c : Char) : RE := RE.cls (fun x => x.toLower = c)

/-- Case-insensitive literal word. -/
def RE.litI (w : String) : RE := RE.seqs (w.data.map RE.chI)

/-- `balancePatterns`: `balance.*?[\$\€\£]?([\d,]+\.?\d*)` (i-flag). -/
def balancePatternRE : RE :=
  RE.seqs [RE.litI "balance", RE.repCls isDotChar 0 none false,
           RE.opt true (RE.cls (fun c => c = '$' || c = '€' || c = '£')),
           RE.repCls (fun c => c.isDigit || c = ',') 1 none true,
           RE.opt true (RE.ch '.'), RE.repCls isDigitB 0 none true]

/-- `statementPeriodPattern`:
`statement period.*?(\d{1,2}\/\d{1,2}\/\d{4}).*?(\d{1,2}\/\d{1,2}\/\d{4})` (i-flag). -/
def statementPeriodPatternRE : RE :=
  let slashDate := RE.seqs [RE.repCls isDigitB 1 (some 2) true, RE.ch '/',
                            RE.repCls isDigitB 1 (some 2) true, RE.ch '/',
                            RE.repCls isDigitB 4 (some 4) true]
  RE.seqs [RE.litI "statement period", RE.repCls isDotChar 0 none false, slashDate,
           RE.repCls isDotChar 0 none false, slashDate]

/-- `new RegExp(accountNumber.replace(/\d/g, "\\d"))`: each digit of
the observed account number becomes a digit wildcard, the remaining
characters stay literal (none of them is a regex metacharacter for the
account numbers this code extracts). -/
def accountNumberPatternOf (accountNumber : List Char) : RE :=
  RE.seqs (accountNumber.map fun c => if c.isDigit then RE.cls isDigitB else RE.ch c)

/-- `extractParsingPatterns(text, data)`. -/
def extractParsingPatterns (text : List Char) (data : BankStatementData) : ParsingConfig :=
  { dateFormats := detectDateFormats text data.transactions
    amountPatterns := detectAmountPatterns text data.transactions
    descriptionPatterns := detectDescriptionPatterns text data.transactions
    balancePatterns := [balancePatternRE]
    accountNumberPattern := accountNumberPatternOf data.accountNumber
    statementPeriodPattern := statementPeriodPatternRE
    transactionIndicators :=
      { creditKeywords := [str "deposit", str "credit", str "transfer in",
                           str "salary", str "refund"]
        debitKeywords := [str "withdrawal", str "debit", str "purchase",
                          str "payment", str "fee"] } }

/-- `.replace(/\d/g, "X")`. -/
def digitsToX (s : List Char) : List Char :=
  s.map fun c => if c.isDigit then 'X' else c

/-- `generateExtractionPrompt(data)`. -/
def generateExtractionPrompt (data : BankStatementData) : List Char :=
  str "\n      Extract bank statement data for " ++ data.bankName ++
  str ". \n      Expected format includes account number pattern similar to " ++
  digitsToX data.accountNumber ++
  str ".\n      Statement period format: " ++ data.statementPeriod ++
  str ".\n      Typical transaction count: " ++
  (Nat.repr data.transactions.length).data ++ str ".\n    "

/-- `generateValidationRules(data)`. -/
def generateValidationRules (data : BankStatementData) : List (List Char) :=
  [str "Bank name should be \"" ++ data.bankName ++ str "\"",
   str "Account number should match pattern: " ++ digitsToX data.accountNumber,
   str "Transactions should have dates in statement period",
   str "All amounts should be positive numbers",
   str "Transaction types should be either 'credit' or 'debit'"]

/-- JS plain-object property write (later writes overwrite, first
insertion fixes position). -/
def recordSet (m : List (List Char × List Char)) (k v : List Char) :
    List (List Char × List Char) :=
  if (List.find? (fun e => e.1 = k) m).isSome then
    List.map (fun e => if e.1 = k then (k, v) else e) m
  else m ++ [(k, v)]

/-- `generateCategoryMappings(transactions)`. -/
def generateCategoryMappings (transactions : List ParsedTransaction) :
    List (List Char × List Char) :=
  transactions.foldl
    (fun m t =>
      if ¬t.category.isEmpty ∧ ¬t.description.isEmpty then
        recordSet m (jsSubstringTo 20 (jsToLower t.description)) t.category
      else m)
    []

/-- `detectRegion` (fixed in the source). -/
def detectRegion (_data : BankStatementData) : List Char := str "US"

/-- `detectCurrency(transactions)`: the source reads
`transactions[0]?.currency`, a property that does not exist on
`ParsedTransaction`, so the `|| "USD"` fallback is always taken. -/
def detectCurrency (_transactions : List ParsedTransaction) : List Char := str "USD"

/-- `/\d{4,}/g` — runs of four or more digits. -/
def digitRun4RE : RE := RE.repCls isDigitB 4 none true

/-- `/[A-Z]{2}\d{2}[A-Z\d]+/g` — account-like alphanumeric tokens. -/
def acctTokenRE : RE :=
  RE.seqs [RE.repCls Char.isUpper 2 (some 2) true,
           RE.repCls isDigitB 2 (some 2) true,
           RE.repCls (fun c => c.isUpper || c.isDigit) 1 none true]

/-- `anonymizeStatement(text)`: redact long digit runs, redact
account-like tokens, truncate to 500 characters. -/
def anonymizeStatement (text : List Char) : List Char :=
  jsSubstringTo 500
    (jsReplaceAllRe acctTokenRE (str "XXXXXXXX")
      (jsReplaceAllRe digitRun4RE (str "XXXX") text))

/-- `createTemplateFromAI(bankStatementData, originalText, userId)`:
the synthesized template, the updated catalogue, and the ids passed to
`saveTemplate`.  `genId` is the `generateTemplateId()` result and
`now` the construction instant. -/
def createTemplateFromAI (c : TemplateCatalogue) (data : BankStatementData)
    (originalText userId genId : List Char) (now : Nat) :
    TemplateCatalogue × BankTemplate × List (List Char) :=
  let template : BankTemplate :=
    { id := genId
      bankName := data.bankName
      templateName := data.bankName ++ str " - Auto Generated"
      version := str "1.0.0"
      createdAt := now
      updatedAt := now
      createdBy := userId
      usageCount := 1
      isVerified := false
      parsing := extractParsingPatterns originalText data
      aiInstructions := some
        { extractionPrompt := generateExtractionPrompt data
          validationRules := generateValidationRules data
          categoryMappings := generateCategoryMappings data.transactions }
      metadata :=
        { supportedFormats := [str "pdf"]
          language := str "en"
          region := detectRegion data
          currency := detectCurrency data.transactions
          avgAccuracy := 0.85
          sampleStatements := [anonymizeStatement originalText] } }
  (catSet c genId template, template, [genId])

/-! ## Exporter feedback hook (excelExporter variant)

`callAI` (the external completion interface, `none` = a rejected call)
and `jsonParse` (`JSON.parse` specialized to a string array, `none` = a
parse exception) are parameters. -/

/-- The prompt built by `retrainCategoryFromFeedback`. -/
def retrainPrompt (description correctCategory : List Char) : List Char :=
  str "The user corrected the category of \"" ++ description ++
  str "\" to \"" ++ correctCategory ++
  str "\". Suggest new keywords or features to improve future classification. Return as an array of strings."

/-- `retrainCategoryFromFeedback(description, correctCategory)`:
`none` models an exception escaping to the caller. -/
def retrainCategoryFromFeedback (callAI : List Char → Option (List Char))
    (jsonParse : List Char → Option (List (List Char)))
    (description correctCategory : List Char) : Option (List (List Char)) :=
  match callAI (retrainPrompt description correctCategory) with
  | none => none
  | some response => jsonParse response

/-- `handleCategoryFeedback(description, correctCategory)`: the
exported hook with its `try … catch { return [] }`. -/
def handleCategoryFeedback (callAI : List Char → Option (List Char))
    (jsonParse : List Char → Option (List (List Char)))
    (description correctCategory : List Char) : List (List Char) :=
  match retrainCategoryFromFeedback callAI jsonParse description correctCategory with
  | some keywords => keywords
  | none => []

/-! ## Derived definitions used by the claim statements -/

/-- Iterated `updateTemplateMetrics` calls on one template id
(accuracy and call instant per call). -/
def runUpdatesOn (c : TemplateCatalogue) (templateId : List Char)
    (calls : List (ℚ × Nat)) : TemplateCatalogue :=
  calls.foldl (fun st call => (updateTemplateMetrics st templateId call.1 call.2).1) c

/-- Iterated `updateTemplateMetrics` calls with arbitrary ids. -/
def runUpdateCalls (c : TemplateCatalogue)
    (calls : List (List Char × ℚ × Nat)) : TemplateCatalogue :=
  calls.foldl (fun st call => (updateTemplateMetrics st call.1 call.2.1 call.2.2).1) c

/-- Signal 1 of `calculateTemplateMatch`: bank-name substring. -/
def bankNameSignal (statementText : List Char) (t : BankTemplate) : Bool :=
  containsSub (jsToLower statementText) (jsToLower t.bankName)

/-- Signal 2: account-number pattern. -/
def accountNumberSignal (statementText : List Char) (t : BankTemplate) : Bool :=
  reTest t.parsing.accountNumberPattern statementText

/-- Signal 3: any configured date-format pattern. -/
def dateFormatSignal (statementText : List Char) (t : BankTemplate) : Bool :=
  t.parsing.dateFormats.any (fun format => reTest (dateFormatToRegex format) statementText)

/-- Signal 4a: some credit keyword present. -/
def creditKeywordSignal (statementText : List Char) (t : BankTemplate) : Bool :=
  t.parsing.transactionIndicators.creditKeywords.any
    (fun keyword => containsSub (jsToLower statementText) (jsToLower keyword))

/-- Signal 4b: some debit keyword present. -/
def debitKeywordSignal (statementText : List Char) (t : BankTemplate) : Bool :=
  t.parsing.transactionIndicators.debitKeywords.any
    (fun keyword => containsSub (jsToLower statementText) (jsToLower keyword))

/-- Leftmost element of `l` attaining the maximal value of `f`. -/
def firstBestBy (f : α → ℚ) : List α → Option α
  | [] => none
  | x :: xs =>
    match firstBestBy f xs with
    | none => some x
    | some y => if f x ≥ f y then some x else some y

/-- `s` is a calendar-valid four-digit `YYYY-MM-DD` string. -/
def isIsoDateForm (s : List Char) : Bool :=
  match s with
  | [y1, y2, y3, y4, sep1, m1, m2, sep2, d1, d2] =>
    (sep1 = '-' && sep2 = '-') &&
    (y1.isDigit && y2.isDigit && y3.isDigit && y4.isDigit) &&
    (m1.isDigit && m2.isDigit && d1.isDigit && d2.isDigit) &&
    (let m : Int := (digitsVal [m1, m2] : Nat)
     let d : Int := (digitsVal [d1, d2] : Nat)
     decide (1 ≤ m) && decide (m ≤ 12) && decide (1 ≤ d) &&
     decide (d ≤ daysInMonthI ((digitsVal [y1, y2, y3, y4] : Nat) : Int) m))
  | _ => false

/-- Digit-run counter: `noDigitRun4Aux k s` is true when `s`, preceded
by `k` pending digits, contains no run of four or more digits. -/
def noDigitRun4Aux : Nat → List Char → Bool
  | _, [] => true
  | k, c :: t =>
    if c.isDigit then decide (k + 1 ≤ 3) && noDigitRun4Aux (k + 1) t
    else noDigitRun4Aux 0 t

/-- `s` contains no run of four or more consecutive decimal digits. -/
def noDigitRun4 (s : List Char) : Bool := noDigitRun4Aux 0 s

/-- A regex that matches nothing (used by witness templates). -/
def neverRE : RE := RE.cls (fun _ => false)

/-- A minimal concrete template for witnesses and counterexamples. -/
def plainTemplate (bankName : List Char) (acct : RE) (dateFormats : List (List Char))
    (creditKws debitKws : List (List Char)) : BankTemplate :=
  { id := bankName
    bankName := bankName
    templateName := bankName
    version := str "1.0.0"
    createdAt := 0
    updatedAt := 0
    createdBy := []
    usageCount := 1
    isVerified := false
    parsing :=
      { dateFormats := dateFormats
        amountPatterns := []
        descriptionPatterns := []
        balancePatterns := []
        accountNumberPattern := acct
        statementPeriodPattern := neverRE
        transactionIndicators := ⟨creditKws, debitKws⟩ }
    aiInstructions := none
    metadata :=
      { supportedFormats := []
        language := []
        region := []
        currency := []
        avgAccuracy := 0.85
        sampleStatements := [] } }

/-- Concrete template for the C2 witness: unverified, `usageCount` 9,
`avgAccuracy` 0.92, about to cross the verification threshold. -/
def c2TemplateW : BankTemplate :=
  { plainTemplate (str "acme") neverRE [] [] [] with
    usageCount := 9
    metadata :=
      { supportedFormats := []
        language := []
        region := []
        currency := []
        avgAccuracy := 23/25
        sampleStatements := [] } }

/-- One-template catalogue for the C2 witness. -/
def c2CatW : TemplateCatalogue := [(str "t", c2TemplateW)]

/-- The template the C2 witness update produces. -/
def c2AfterW : BankTemplate :=
  { c2TemplateW with
    usageCount := 10
    updatedAt := 5
    isVerified := true
    metadata := { c2TemplateW.metadata with avgAccuracy := 459/500 } }

/-- Preference combinator behind `firstBestBy`: the better of two
optional candidates, the left one on ties. -/
def combineBest (f : α → ℚ) : Option α → Option α → Option α
  | none, h => h
  | some a, none => some a
  | some a, some b => if f a ≥ f b then some a else some b

/-- Template A for the C5 witness (registered first). -/
def c5TemplateA : BankTemplate :=
  plainTemplate (str "acme") neverRE [] [str "deposit"] []

/-- Template B for the C5 witness (registered second; same score). -/
def c5TemplateB : BankTemplate :=
  { plainTemplate (str "acme") neverRE [] [str "deposit"] [] with
    templateName := str "templateB" }

/-- Two-template catalogue for the C5 witness, A before B. -/
def c5CatW : TemplateCatalogue :=
  [(str "A", c5TemplateA), (str "B", c5TemplateB)]

/-- Statement text scoring 0.45 against both C5 witness templates. -/
def c5TextW : List Char := str "acme deposit"

/-- The match result the C5 witness expects: template A, score 0.45. -/
def c5ResW : TemplateMatchResult :=
  ⟨c5TemplateA, 45/100, [str "Bank Name"]⟩

/-- The single input line of the C3 scenario. -/
def c3Text : List Char := str "03/15/2024 STARBUCKS COFFEE -5.75"

/-- The transaction the recognizer actually produces on `c3Text`. -/
def c3Tx : ParsedTransaction :=
  { date := str "2024-03-15"
    description := str "STARBUCKS COFFEE"
    amount := 23/4
    balance := none
    type := TxType.debit
    category := str "Fees & Charges"
    confidence := 1/2 }

/-- A three-line input whose recognizer output violates the date-sort
invariant: the middle line sends the comparator into `NaN` territory
and the surrounding lines stay in recognition order. -/
def c6Text : List Char :=
  str "1/1/25 a 1 x1/1/25 a 1 x1/1/25 a 1 x1/1/25 a 1\n1/1/11 a-b 1 x1/1/11 a-b 1 x1/1/11 a-b 1 x1/1/11 a-b 1\n1/1/24 a 1 x1/1/24 a 1 x1/1/24 a 1 x1/1/24 a 1"

/-! # Theorems -/

/-! ## Catalogue lemmas -/

theorem find?_map_upd (c : TemplateCatalogue) (k : List Char) (v : BankTemplate) :
    List.find? (fun e => decide (e.1 = k)) (c.map (fun e => if e.1 = k then (k, v) else e)) =
    (List.find? (fun e => decide (e.1 = k)) c).map (fun _ => (k, v)) := by
  induction c with
  | nil => rfl
  | cons e rest ih =>
    by_cases he : e.1 = k
    · simp [List.find?_cons, he]
    · simp [List.find?_cons, he, ih]

theorem find?_map_upd_other (c : TemplateCatalogue) (k k' : List Char) (v : BankTemplate)
    (hne : k' ≠ k) :
    List.find? (fun e => decide (e.1 = k')) (c.map (fun e => if e.1 = k then (k, v) else e)) =
    List.find? (fun e => decide (e.1 = k')) c := by
  induction c with
  | nil => rfl
  | cons e rest ih =>
    by_cases he : e.1 = k
    · simp [List.find?_cons, he, Ne.symm hne, ih]
    · by_cases he' : e.1 = k'
      · simp [List.find?_cons, he, he', hne]
      · simp [List.find?_cons, he, he', ih]

theorem catGet_catSet_same (c : TemplateCatalogue) (k : List Char) (v : BankTemplate) :
    catGet (catSet c k v) k = some v := by
  unfold catGet catSet
  by_cases h : (List.find? (fun e => decide (e.1 = k)) c).isSome
  · rw [if_pos h, find?_map_upd]
    obtain ⟨e, he⟩ := Option.isSome_iff_exists.mp h
    simp [he]
  · rw [if_neg h, List.find?_append]
    rw [Option.not_isSome_iff_eq_none.mp h]
    simp [List.find?_cons]

theorem catGet_catSet_other (c : TemplateCatalogue) (k k' : List Char) (v : BankTemplate)
    (hne : k' ≠ k) : catGet (catSet c k v) k' = catGet c k' := by
  unfold catGet catSet
  by_cases h : (List.find? (fun e => decide (e.1 = k)) c).isSome
  · rw [if_pos h, find?_map_upd_other c k k' v hne]
  · rw [if_neg h, List.find?_append]
    cases hf : List.find? (fun e => decide (e.1 = k')) c
    · simp [List.find?_cons, Ne.symm hne]
    · simp

/-! ## `updateTemplateMetrics` step lemmas -/

theorem updateTemplateMetrics_found (c : TemplateCatalogue) (tid : List Char) (acc : ℚ)
    (now : Nat) (t : BankTemplate) (h : catGet c tid = some t) :
    ∃ t2, (updateTemplateMetrics c tid acc now).1 = catSet c tid t2 ∧
      t2.usageCount = t.usageCount + 1 ∧
      t2.metadata.avgAccuracy =
        (t.metadata.avgAccuracy * t.usageCount + acc) / (t.usageCount + 1) ∧
      (t.isVerified = true → t2.isVerified = true) ∧
      (t2.isVerified = true →
        t.isVerified = true ∨ (t2.usageCount ≥ 10 ∧ t2.metadata.avgAccuracy ≥ 9/10)) := by
  unfold updateTemplateMetrics
  rw [h]
  simp only
  refine ⟨_, rfl, ?_, ?_, ?_, ?_⟩
  · split <;> rfl
  · split <;> (show (t.metadata.avgAccuracy * ((((t.usageCount + 1 : Nat) : ℚ)) - 1) + acc) /
        ((t.usageCount + 1 : Nat) : ℚ) = _ ; push_cast ; ring_nf)
  · intro hv; split
    · rfl
    · exact hv
  · split
    · rename_i hcond
      intro _
      exact Or.inr hcond
    · intro hv
      exact Or.inl hv

theorem updateTemplateMetrics_notFound (c : TemplateCatalogue) (tid : List Char)
    (acc : ℚ) (now : Nat) (h : catGet c tid = none) :
    updateTemplateMetrics c tid acc now = (c, []) := by
  unfold updateTemplateMetrics
  rw [h]

/-- **C9**: calling `updateTemplateMetrics` with a template id that is
not in the catalogue is a silent no-op: the function returns normally,
the catalogue (hence every template's `usageCount`, `avgAccuracy`,
`isVerified` and `updatedAt`) is unchanged, and no persistence call
(`updateTemplateInDB`) is made. -/
theorem C9_updateTemplateMetrics_missing_id_noop (c : TemplateCatalogue)
    (templateId : List Char) (accuracy : ℚ) (now : Nat)
    (h : catGet c templateId = none) :
    updateTemplateMetrics c templateId accuracy now = (c, []) :=
  updateTemplateMetrics_notFound c templateId accuracy now h

/-- Witness for C9 at a concrete input: the empty catalogue and id
`"missing"`. -/
theorem C9_updateTemplateMetrics_missing_id_noop_witness :
    updateTemplateMetrics [] (str "missing") (9/10) 7 = ([], []) :=
  C9_updateTemplateMetrics_missing_id_noop [] (str "missing") (9/10) 7 rfl

/-- **C8**: the exported category-feedback hook never throws: whenever
the AI call fails or its response fails to parse as JSON,
`handleCategoryFeedback` returns the empty list, and otherwise it
returns exactly the parsed keyword list. -/
theorem C8_handleCategoryFeedback_total (callAI : List Char → Option (List Char))
    (jsonParse : List Char → Option (List (List Char)))
    (description correctCategory : List Char) :
    (callAI (retrainPrompt description correctCategory) = none →
      handleCategoryFeedback callAI jsonParse description correctCategory = []) ∧
    (∀ r, callAI (retrainPrompt description correctCategory) = some r →
      jsonParse r = none →
      handleCategoryFeedback callAI jsonParse description correctCategory = []) ∧
    (∀ r l, callAI (retrainPrompt description correctCategory) = some r →
      jsonParse r = some l →
      handleCategoryFeedback callAI jsonParse description correctCategory = l) := by
  unfold handleCategoryFeedback retrainCategoryFromFeedback
  refine ⟨?_, ?_, ?_⟩
  · intro h; rw [h]
  · intro r h hp; rw [h]; simp [hp]
  · intro r l h hp; rw [h]; simp [hp]

/-- Witness for C8 at a concrete input: a failing AI interface yields
the empty list. -/
theorem C8_handleCategoryFeedback_total_witness :
    handleCategoryFeedback (fun _ => none) (fun _ => none)
      (str "STARBUCKS") (str "Food & Dining") = [] :=
  (C8_handleCategoryFeedback_total (fun _ => none) (fun _ => none)
    (str "STARBUCKS") (str "Food & Dining")).1 rfl

/-! ## Running-mean invariant (towards C1) -/

theorem runUpdatesOn_get (calls : List (ℚ × Nat)) :
    ∀ (c : TemplateCatalogue) (tid : List Char) (t : BankTemplate),
      catGet c tid = some t → 1 ≤ t.usageCount →
      ∃ t', catGet (runUpdatesOn c tid calls) tid = some t' ∧
        t'.usageCount = t.usageCount + calls.length ∧
        t'.metadata.avgAccuracy =
          (t.metadata.avgAccuracy * t.usageCount + (calls.map Prod.fst).sum) /
            (t.usageCount + calls.length) := by
  induction calls with
  | nil =>
    intro c tid t h hu
    refine ⟨t, h, by simp, ?_⟩
    have hne : ((t.usageCount : ℚ)) ≠ 0 := by
      simpa using Nat.cast_pos.mpr (by omega : 0 < t.usageCount) |>.ne'
    field_simp
  | cons call rest ih =>
    intro c tid t h hu
    obtain ⟨t2, heq, husage, havg, _, _⟩ :=
      updateTemplateMetrics_found c tid call.1 call.2 t h
    have hget2 : catGet ((updateTemplateMetrics c tid call.1 call.2).1) tid = some t2 := by
      rw [heq]; exact catGet_catSet_same c tid t2
    obtain ⟨t', hget', husage', havg'⟩ := ih _ tid t2 hget2 (by omega)
    have hstep : runUpdatesOn c tid (call :: rest) =
        runUpdatesOn ((updateTemplateMetrics c tid call.1 call.2).1) tid rest := rfl
    refine ⟨t', by rw [hstep]; exact hget', by rw [husage', husage]; simp; omega, ?_⟩
    rw [havg', husage, havg]
    have hne : ((t.usageCount : ℚ)) + 1 ≠ 0 := by positivity
    have hne2 : ((t.usageCount : ℚ)) + 1 + rest.length ≠ 0 := by positivity
    push_cast
    field_simp
    ring

/-- **C1**: a template created by `createTemplateFromAI` starts with
`usageCount = 1` and `avgAccuracy = 0.85`, and after any sequence of
`updateTemplateMetrics` calls on it with observed accuracies
`a₁ … aₙ` it has `usageCount = n + 1` and
`avgAccuracy = (0.85 + a₁ + … + aₙ) / (n + 1)` (each call increments
the usage count and then takes the weighted running mean). -/
theorem C1_running_mean (c : TemplateCatalogue) (data : BankStatementData)
    (originalText userId genId : List Char) (now : Nat) (calls : List (ℚ × Nat)) :
    (catGet ((createTemplateFromAI c data originalText userId genId now).1) genId).map
        (fun t => (t.usageCount, t.metadata.avgAccuracy)) = some (1, 0.85) ∧
    (catGet (runUpdatesOn ((createTemplateFromAI c data originalText userId genId now).1)
        genId calls) genId).map
        (fun t => (t.usageCount, t.metadata.avgAccuracy)) =
      some (calls.length + 1, (0.85 + (calls.map Prod.fst).sum) / (calls.length + 1)) := by
  have hget : catGet ((createTemplateFromAI c data originalText userId genId now).1) genId =
      some (createTemplateFromAI c data originalText userId genId now).2.1 :=
    catGet_catSet_same c genId _
  constructor
  · rw [hget]; rfl
  · obtain ⟨t', hget', husage, havg⟩ :=
      runUpdatesOn_get calls _ genId _ hget (by rfl)
    rw [hget', Option.map_some']
    have h1 : (createTemplateFromAI c data originalText userId genId now).2.1.usageCount = 1 := rfl
    have h2 : (createTemplateFromAI c data originalText userId genId now).2.1.metadata.avgAccuracy
        = 0.85 := rfl
    rw [h1] at husage
    rw [h1, h2] at havg
    refine congrArg some (Prod.ext ?_ ?_)
    · simpa [Nat.add_comm] using husage
    · rw [havg]
      push_cast
      ring_nf

/-! ## Verification-flag preservation (towards C2) -/

theorem updateTemplateMetrics_preserves (c : TemplateCatalogue) (templateId : List Char)
    (acc : ℚ) (now : Nat) (tid : List Char) (t : BankTemplate)
    (h : catGet c tid = some t) :
    ∃ t', catGet ((updateTemplateMetrics c templateId acc now).1) tid = some t' ∧
      (t.isVerified = true → t'.isVerified = true) ∧
      (t.isVerified = false → t'.isVerified = true →
        t'.usageCount ≥ 10 ∧ t'.metadata.avgAccuracy ≥ 9/10) := by
  cases hfound : catGet c templateId with
  | none =>
    rw [updateTemplateMetrics_notFound c templateId acc now hfound]
    exact ⟨t, h, fun hv => hv, fun hf hv => by rw [hf] at hv; cases hv⟩
  | some u =>
    obtain ⟨t2, heq, husage, havg, hmono, hflip⟩ :=
      updateTemplateMetrics_found c templateId acc now u hfound
    by_cases htid : tid = templateId
    · subst htid
      rw [h] at hfound
      injection hfound with hfound
      subst hfound
      refine ⟨t2, by rw [heq]; exact catGet_catSet_same c tid t2, hmono, ?_⟩
      intro hf hv
      rcases hflip hv with hleft | hright
      · rw [hf] at hleft; cases hleft
      · exact hright
    · refine ⟨t, ?_, fun hv => hv, fun hf hv => by rw [hf] at hv; cases hv⟩
      rw [heq, catGet_catSet_other c templateId tid t2 htid]
      exact h

theorem runUpdateCalls_mono (calls : List (List Char × ℚ × Nat)) :
    ∀ (c : TemplateCatalogue) (tid : List Char) (t : BankTemplate),
      catGet c tid = some t → t.isVerified = true →
      ∃ t', catGet (runUpdateCalls c calls) tid = some t' ∧ t'.isVerified = true := by
  induction calls with
  | nil => intro c tid t h hv; exact ⟨t, h, hv⟩
  | cons call rest ih =>
    intro c tid t h hv
    obtain ⟨t2, hget2, hmono, _⟩ :=
      updateTemplateMetrics_preserves c call.1 call.2.1 call.2.2 tid t h
    exact ih _ tid t2 hget2 (hmono hv)

/-- **C2**: `isVerified` flips from false to true only at an
`updateTemplateMetrics` call after which `usageCount ≥ 10` and
`avgAccuracy ≥ 0.9`; once true it stays true across every further
`updateTemplateMetrics` call, and `createTemplateFromAI` (which only
adds a template under its freshly generated id) leaves every other
catalogue entry untouched. -/
theorem C2_verification_monotone :
    (∀ (c : TemplateCatalogue) (templateId : List Char) (acc : ℚ) (now : Nat)
       (tid : List Char) (t t' : BankTemplate),
      catGet c tid = some t →
      catGet ((updateTemplateMetrics c templateId acc now).1) tid = some t' →
      (t.isVerified = true → t'.isVerified = true) ∧
      (t.isVerified = false → t'.isVerified = true →
        t'.usageCount ≥ 10 ∧ t'.metadata.avgAccuracy ≥ 9/10)) ∧
    (∀ (c : TemplateCatalogue) (calls : List (List Char × ℚ × Nat))
       (tid : List Char) (t t' : BankTemplate),
      catGet c tid = some t →
      catGet (runUpdateCalls c calls) tid = some t' →
      t.isVerified = true → t'.isVerified = true) ∧
    (∀ (c : TemplateCatalogue) (data : BankStatementData)
       (originalText userId genId : List Char) (now : Nat) (tid : List Char),
      tid ≠ genId →
      catGet ((createTemplateFromAI c data originalText userId genId now).1) tid =
        catGet c tid) := by
  refine ⟨?_, ?_, ?_⟩
  · intro c templateId acc now tid t t' h h'
    obtain ⟨t'', hget'', hmono, hflip⟩ :=
      updateTemplateMetrics_preserves c templateId acc now tid t h
    rw [hget''] at h'
    injection h' with h'
    subst h'
    exact ⟨hmono, hflip⟩
  · intro c calls tid t t' h h' hv
    obtain ⟨t'', hget'', hv''⟩ := runUpdateCalls_mono calls c tid t h hv
    rw [hget''] at h'
    injection h' with h'
    subst h'
    exact hv''
  · intro c data originalText userId genId now tid hne
    exact catGet_catSet_other c genId tid _ hne

/-- Witness for C2 at a concrete input: updating an unverified
template with `usageCount` 9 and `avgAccuracy` 0.92 by an observed
accuracy of 0.9 flips `isVerified`, and at that point the threshold
`usageCount ≥ 10 ∧ avgAccuracy ≥ 0.9` indeed holds. -/
theorem C2_verification_monotone_witness :
    c2AfterW.usageCount ≥ 10 ∧ c2AfterW.metadata.avgAccuracy ≥ 9/10 :=
  (C2_verification_monotone.1 c2CatW (str "t") (9/10) 5 (str "t")
    c2TemplateW c2AfterW rfl (by with_unfolding_all rfl)).2 rfl rfl

/-- **C4**: for every template and input text the normalized match
score lies in `[0,1]`; it decomposes as the weighted sum of the four
signals (30 bank name, 20 account pattern, 25 date format, 25/15/0
transaction keywords) over 100; with no signal present it is 0 and
with all four fully present (both keyword sets) it is 1. -/
theorem C4_template_score_bounds (text : List Char) (t : BankTemplate) :
    0 ≤ calculateTemplateMatch text t ∧ calculateTemplateMatch text t ≤ 1 ∧
    calculateTemplateMatch text t =
      ((if bankNameSignal text t then 30 else 0) +
       (if accountNumberSignal text t then 20 else 0) +
       (if dateFormatSignal text t then 25 else 0) +
       (if creditKeywordSignal text t && debitKeywordSignal text t then 25
        else if creditKeywordSignal text t || debitKeywordSignal text t then 15 else 0)) / 100 ∧
    (bankNameSignal text t = false → accountNumberSignal text t = false →
     dateFormatSignal text t = false → creditKeywordSignal text t = false →
     debitKeywordSignal text t = false → calculateTemplateMatch text t = 0) ∧
    (bankNameSignal text t = true → accountNumberSignal text t = true →
     dateFormatSignal text t = true → creditKeywordSignal text t = true →
     debitKeywordSignal text t = true → calculateTemplateMatch text t = 1) := by
  unfold calculateTemplateMatch bankNameSignal accountNumberSignal dateFormatSignal
    creditKeywordSignal debitKeywordSignal
  cases h1 : containsSub (jsToLower text) (jsToLower t.bankName) <;>
  cases h2 : reTest t.parsing.accountNumberPattern text <;>
  cases h3 : t.parsing.dateFormats.any
    (fun format => reTest (dateFormatToRegex format) text) <;>
  cases h4 : t.parsing.transactionIndicators.creditKeywords.any
    (fun keyword => containsSub (jsToLower text) (jsToLower keyword)) <;>
  cases h5 : t.parsing.transactionIndicators.debitKeywords.any
    (fun keyword => containsSub (jsToLower text) (jsToLower keyword)) <;>
  norm_num

/-- Witness for C4 at concrete inputs: a template matching all four
signals on a matching text scores 1, and a template with no signal
present scores 0. -/
theorem C4_template_score_bounds_witness :
    calculateTemplateMatch (str "chase 12/12/2024 deposit withdrawal")
      (plainTemplate (str "chase") (RE.repCls isDigitB 4 (some 4) true)
        [str "MM/DD/YYYY"] [str "deposit"] [str "withdrawal"]) = 1 ∧
    calculateTemplateMatch (str "hello")
      (plainTemplate (str "acme") neverRE [] [] []) = 0 :=
  ⟨(C4_template_score_bounds (str "chase 12/12/2024 deposit withdrawal")
      (plainTemplate (str "chase") (RE.repCls isDigitB 4 (some 4) true)
        [str "MM/DD/YYYY"] [str "deposit"] [str "withdrawal"])).2.2.2.2
    (by decide) (by decide) (by decide) (by decide) (by decide),
   (C4_template_score_bounds (str "hello")
      (plainTemplate (str "acme") neverRE [] [] [])).2.2.2.1
    (by decide) (by decide) (by decide) (by decide) (by decide)⟩

/-! ## Sort-head characterization (towards C5) -/

theorem jsMerge_head (cmp : α → α → ℚ) (l r : List α) :
    (jsMerge cmp l r).head? =
      match l.head?, r.head? with
      | none, h => h
      | some a, none => some a
      | some a, some b => if cmp a b ≤ 0 then some a else some b := by
  match l, r with
  | [], [] => simp [jsMerge]
  | [], b :: bs => simp [jsMerge]
  | a :: as, [] => simp [jsMerge]
  | a :: as, b :: bs =>
    simp only [jsMerge, List.head?_cons]
    by_cases h : cmp a b ≤ 0 <;> simp [h]

theorem firstBestBy_isSome (f : α → ℚ) (x : α) (xs : List α) :
    (firstBestBy f (x :: xs)).isSome := by
  simp only [firstBestBy]
  cases firstBestBy f xs with
  | none => simp
  | some y => by_cases h : f x ≥ f y <;> simp [h]

theorem firstBestBy_cons (f : α → ℚ) (x : α) (xs : List α) :
    firstBestBy f (x :: xs) = combineBest f (some x) (firstBestBy f xs) := by
  simp only [firstBestBy]
  cases firstBestBy f xs <;> rfl

theorem combineBest_assoc (f : α → ℚ) (A B C : Option α) :
    combineBest f A (combineBest f B C) = combineBest f (combineBest f A B) C := by
  cases A with
  | none => rfl
  | some a =>
    cases B with
    | none => rfl
    | some b =>
      cases C with
      | none => simp only [combineBest]; split <;> rfl
      | some c =>
        simp only [combineBest]
        by_cases hbc : f b ≥ f c <;> by_cases hab : f a ≥ f b <;>
          simp only [if_pos, if_neg, hbc, hab, if_true, if_false] <;>
          split_ifs <;> first | rfl | (exfalso; linarith)

theorem firstBestBy_append (f : α → ℚ) (l1 l2 : List α) :
    firstBestBy f (l1 ++ l2) = combineBest f (firstBestBy f l1) (firstBestBy f l2) := by
  induction l1 with
  | nil => rfl
  | cons x xs ih =>
    rw [List.cons_append, firstBestBy_cons, ih, firstBestBy_cons, combineBest_assoc]

theorem jsSortBy_head (f : α → ℚ) (l : List α) :
    (jsSortBy (fun a b => f b - f a) l).head? = firstBestBy f l := by
  match l with
  | [] => simp [jsSortBy, firstBestBy]
  | [x] => simp [jsSortBy, firstBestBy, combineBest]
  | a :: b :: rest =>
    rw [jsSortBy]
    rw [jsMerge_head]
    rw [jsSortBy_head f ((a :: b :: rest).take ((a :: b :: rest).length / 2))]
    rw [jsSortBy_head f ((a :: b :: rest).drop ((a :: b :: rest).length / 2))]
    have hsplit := List.take_append_drop ((a :: b :: rest).length / 2) (a :: b :: rest)
    conv_rhs => rw [← hsplit]
    rw [firstBestBy_append]
    cases firstBestBy f ((a :: b :: rest).take ((a :: b :: rest).length / 2)) <;>
      cases firstBestBy f ((a :: b :: rest).drop ((a :: b :: rest).length / 2)) <;>
      simp only [combineBest]
    rename_i x y
    by_cases h : f x ≥ f y
    · rw [if_pos (by linarith : f y - f x ≤ 0), if_pos h]
    · rw [if_neg (by rw [not_le] at h ⊢; linarith : ¬(f y - f x ≤ 0)), if_neg h]
termination_by l.length
decreasing_by
  all_goals simp [List.length_take, List.length_drop]
  all_goals omega

theorem firstBestBy_some (f : α → ℚ) (l : List α) :
    ∀ r, firstBestBy f l = some r →
      (∃ pre post, l = pre ++ r :: post ∧ ∀ x ∈ pre, f x < f r) ∧
      r ∈ l ∧ ∀ x ∈ l, f x ≤ f r := by
  induction l with
  | nil => intro r h; cases h
  | cons x xs ih =>
    intro r h
    rw [firstBestBy_cons] at h
    cases hA : firstBestBy f xs with
    | none =>
      rw [hA] at h
      simp only [combineBest] at h
      injection h with h
      subst h
      have hnil : xs = [] := by
        cases xs with
        | nil => rfl
        | cons y ys => exact absurd hA (by have := firstBestBy_isSome f y ys; simp_all)
      subst hnil
      exact ⟨⟨[], [], rfl, by simp⟩, by simp, by simp⟩
    | some y =>
      rw [hA] at h
      simp only [combineBest] at h
      obtain ⟨⟨pre, post, hdec, hpre⟩, hmem, hmax⟩ := ih y hA
      by_cases hxy : f x ≥ f y
      · rw [if_pos hxy] at h
        injection h with h
        subst h
        refine ⟨⟨[], xs, rfl, by simp⟩, by simp, ?_⟩
        intro z hz
        rcases List.mem_cons.mp hz with hz | hz
        · subst hz; rfl
        · exact le_trans (hmax z hz) hxy
      · rw [if_neg hxy] at h
        injection h with h
        subst h
        push_neg at hxy
        refine ⟨⟨x :: pre, post, by rw [hdec]; rfl, ?_⟩, by simp [hmem], ?_⟩
        · intro z hz
          rcases List.mem_cons.mp hz with hz | hz
          · subst hz; exact hxy
          · exact hpre z hz
        · intro z hz
          rcases List.mem_cons.mp hz with hz | hz
          · subst hz; exact le_of_lt hxy
          · exact hmax z hz

theorem firstBestBy_none (f : α → ℚ) (l : List α) :
    firstBestBy f l = none ↔ l = [] := by
  cases l with
  | nil => simp [firstBestBy]
  | cons x xs =>
    constructor
    · intro h; exact absurd h (by have := firstBestBy_isSome f x xs; simp_all)
    · intro h; cases h

/-- The candidate list built inside `findBestTemplate`. -/
theorem candidates_spec (text : List Char) (ts : List BankTemplate) :
    (firstBestBy (fun r : TemplateMatchResult => r.confidence)
        (ts.filterMap fun template =>
          let confidence := calculateTemplateMatch text template
          if confidence > 3/10 then
            some ⟨template, confidence, getMatchedFeatures text template⟩
          else none) = none ↔
      ∀ t ∈ ts, calculateTemplateMatch text t ≤ 3/10) ∧
    (∀ r, firstBestBy (fun r : TemplateMatchResult => r.confidence)
        (ts.filterMap fun template =>
          let confidence := calculateTemplateMatch text template
          if confidence > 3/10 then
            some ⟨template, confidence, getMatchedFeatures text template⟩
          else none) = some r →
      (∃ pre post, ts = pre ++ r.template :: post ∧
        ∀ t ∈ pre, calculateTemplateMatch text t < r.confidence) ∧
      r.confidence = calculateTemplateMatch text r.template ∧
      r.confidence > 3/10 ∧
      ∀ t ∈ ts, calculateTemplateMatch text t ≤ r.confidence) := by
  induction ts with
  | nil => exact ⟨by simp [firstBestBy], fun r h => by cases h⟩
  | cons t ts ih =>
    by_cases hc : calculateTemplateMatch text t > 3/10
    · have hcand : (t :: ts).filterMap (fun template =>
          let confidence := calculateTemplateMatch text template
          if confidence > 3/10 then
            some (⟨template, confidence, getMatchedFeatures text template⟩ :
              TemplateMatchResult)
          else none) =
          ⟨t, calculateTemplateMatch text t, getMatchedFeatures text t⟩ ::
          ts.filterMap (fun template =>
            let confidence := calculateTemplateMatch text template
            if confidence > 3/10 then
              some ⟨template, confidence, getMatchedFeatures text template⟩
            else none) := by
        simp only [List.filterMap_cons, if_pos hc]
      constructor
      · rw [hcand]
        constructor
        · intro h
          have hs := firstBestBy_isSome (fun r : TemplateMatchResult => r.confidence)
            (⟨t, calculateTemplateMatch text t, getMatchedFeatures text t⟩ :
              TemplateMatchResult)
            (ts.filterMap fun template =>
              let confidence := calculateTemplateMatch text template
              if confidence > 3/10 then
                some ⟨template, confidence, getMatchedFeatures text template⟩
              else none)
          rw [h] at hs
          simp at hs
        · intro hall
          exact absurd hc (not_lt.mpr (hall t (by simp)))
      · intro r h
        rw [hcand, firstBestBy_cons] at h
        cases hB : firstBestBy (fun r : TemplateMatchResult => r.confidence)
            (ts.filterMap fun template =>
              let confidence := calculateTemplateMatch text template
              if confidence > 3/10 then
                some ⟨template, confidence, getMatchedFeatures text template⟩
              else none) with
        | none =>
          rw [hB] at h
          simp only [combineBest] at h
          injection h with h
          subst h
          have hall := (ih.1).mp hB
          refine ⟨⟨[], ts, rfl, by simp⟩, rfl, hc, ?_⟩
          intro z hz
          rcases List.mem_cons.mp hz with hz | hz
          · subst hz; rfl
          · exact le_trans (hall z hz) (le_of_lt hc)
        | some y =>
          rw [hB] at h
          simp only [combineBest] at h
          obtain ⟨⟨pre, post, hdec, hpre⟩, hconf, hgt, hmax⟩ := ih.2 y hB
          by_cases hty : calculateTemplateMatch text t ≥ y.confidence
          · rw [if_pos hty] at h
            injection h with h
            subst h
            refine ⟨⟨[], ts, rfl, by simp⟩, rfl, hc, ?_⟩
            intro z hz
            rcases List.mem_cons.mp hz with hz | hz
            · subst hz; rfl
            · exact le_trans (hmax z hz) hty
          · rw [if_neg hty] at h
            injection h with h
            subst h
            push_neg at hty
            refine ⟨⟨t :: pre, post, by rw [hdec]; simp, ?_⟩, hconf, hgt, ?_⟩
            · intro z hz
              rcases List.mem_cons.mp hz with hz | hz
              · subst hz; exact hty
              · exact hpre z hz
            · intro z hz
              rcases List.mem_cons.mp hz with hz | hz
              · subst hz; exact le_of_lt hty
              · exact hmax z hz
    · have hcand : (t :: ts).filterMap (fun template =>
          let confidence := calculateTemplateMatch text template
          if confidence > 3/10 then
            some (⟨template, confidence, getMatchedFeatures text template⟩ :
              TemplateMatchResult)
          else none) =
          ts.filterMap (fun template =>
            let confidence := calculateTemplateMatch text template
            if confidence > 3/10 then
              some ⟨template, confidence, getMatchedFeatures text template⟩
            else none) := by
        simp only [List.filterMap_cons, if_neg hc]
      rw [hcand]
      constructor
      · rw [ih.1]
        constructor
        · intro hall z hz
          rcases List.mem_cons.mp hz with hz | hz
          · subst hz; simpa using hc
          · exact hall z hz
        · intro hall z hz
          exact hall z (by simp [hz])
      · intro r h
        obtain ⟨⟨pre, post, hdec, hpre⟩, hconf, hgt, hmax⟩ := ih.2 r h
        refine ⟨⟨t :: pre, post, by rw [hdec]; simp, ?_⟩, hconf, hgt, ?_⟩
        · intro z hz
          rcases List.mem_cons.mp hz with hz | hz
          · subst hz; exact lt_of_le_of_lt (by simpa using hc) hgt
          · exact hpre z hz
        · intro z hz
          rcases List.mem_cons.mp hz with hz | hz
          · subst hz; exact le_trans (by simpa using hc) (le_of_lt hgt)
          · exact hmax z hz

/-- **C5 (amended)**: `findBestTemplate` keeps exactly the candidates
whose score is strictly above 0.3 (so a template scoring exactly 0.3
is discarded), returns the highest-scoring remaining candidate — the
first-encountered one among equal top scores — and returns `none`
when every candidate was discarded. -/
theorem C5_findBestTemplate_spec (c : TemplateCatalogue) (text : List Char) :
    (findBestTemplate c text = none ↔
      ∀ t ∈ catValues c, calculateTemplateMatch text t ≤ 3/10) ∧
    (∀ r, findBestTemplate c text = some r →
      (∃ pre post, catValues c = pre ++ r.template :: post ∧
        ∀ t ∈ pre, calculateTemplateMatch text t < r.confidence) ∧
      r.confidence = calculateTemplateMatch text r.template ∧
      r.confidence > 3/10 ∧
      ∀ t ∈ catValues c, calculateTemplateMatch text t ≤ r.confidence) := by
  have hhead : findBestTemplate c text =
      firstBestBy (fun r : TemplateMatchResult => r.confidence)
        ((catValues c).filterMap fun template =>
          let confidence := calculateTemplateMatch text template
          if confidence > 3/10 then
            some ⟨template, confidence, getMatchedFeatures text template⟩
          else none) := by
    unfold findBestTemplate
    exact jsSortBy_head (fun r : TemplateMatchResult => r.confidence) _
  rw [hhead]
  exact candidates_spec text (catValues c)

/-- Counterexample to C5 as stated: a template whose score is exactly
0.3 (bank-name signal only) is not below the 0.3 threshold, yet
`findBestTemplate` discards it and returns `none` instead of
returning it as the highest-scoring candidate. -/
theorem C5_threshold_counterexample :
    calculateTemplateMatch (str "acme statement")
      (plainTemplate (str "acme") neverRE [] [] []) = 3/10 ∧
    ¬(calculateTemplateMatch (str "acme statement")
      (plainTemplate (str "acme") neverRE [] [] []) < 3/10) ∧
    findBestTemplate [(str "A", plainTemplate (str "acme") neverRE [] [] [])]
      (str "acme statement") = none := by
  refine ⟨by with_unfolding_all rfl, ?_, by with_unfolding_all rfl⟩
  intro hlt
  rw [show calculateTemplateMatch (str "acme statement")
      (plainTemplate (str "acme") neverRE [] [] []) = 3/10 from by with_unfolding_all rfl] at hlt
  exact lt_irrefl _ hlt

/-- Witness for C5 (amended) at a concrete input: two templates both
scoring 0.45, A registered before B — `findBestTemplate` returns A,
whose score is above the threshold, equals its recomputed match score,
and is maximal. -/
theorem C5_findBestTemplate_spec_witness :
    findBestTemplate c5CatW c5TextW = some c5ResW ∧
    c5ResW.confidence = calculateTemplateMatch c5TextW c5ResW.template ∧
    c5ResW.confidence > 3/10 ∧
    c5ResW.template.templateName ≠ c5TemplateB.templateName := by
  have h : findBestTemplate c5CatW c5TextW = some c5ResW := by with_unfolding_all rfl
  obtain ⟨_, hconf, hgt, _⟩ := (C5_findBestTemplate_spec c5CatW c5TextW).2 c5ResW h
  exact ⟨h, hconf, hgt, by decide⟩

/-! ## Greedy class-run matching (towards C10) -/

theorem clsSuffixes_length (p : Char → Bool) (s : List Char) :
    (clsSuffixes p s).length = (s.takeWhile p).length + 1 := by
  induction s with
  | nil => rfl
  | cons c t ih =>
    simp only [clsSuffixes, List.takeWhile_cons]
    cases hc : p c <;> simp [hc, ih]

theorem clsSuffixes_getLast (p : Char → Bool) (s : List Char) :
    (clsSuffixes p s).getLast? = some (s.drop ((s.takeWhile p).length)) := by
  induction s with
  | nil => rfl
  | cons c t ih =>
    simp only [clsSuffixes, List.takeWhile_cons]
    cases hc : p c
    · simp
    · cases hcs : clsSuffixes p t with
      | nil =>
        exfalso
        have := clsSuffixes_length p t
        rw [hcs] at this
        simp at this
      | cons y ys =>
        simp only [hc, if_true, List.length_cons]
        rw [List.getLast?_cons_cons, ← hcs, ih, List.drop_succ_cons]

theorem firstSome_total (k : List Char → Option α) (hk : ∀ x, (k x).isSome)
    (l : List (List Char)) : firstSome k l = l.head?.bind k := by
  cases l with
  | nil => rfl
  | cons x rest =>
    simp only [firstSome, List.head?_cons, Option.bind_some]
    obtain ⟨v, hv⟩ := Option.isSome_iff_exists.mp (hk x)
    simp [hv, Option.orElse]

theorem matchLenAt_repCls_greedy (p : Char → Bool) (lo : Nat) (s : List Char) :
    matchLenAt (RE.repCls p lo none true) s =
      if lo ≤ (s.takeWhile p).length then some ((s.takeWhile p).length) else none := by
  unfold matchLenAt RE.run
  show Option.map (fun r => s.length - r)
      (firstSome (fun rest => some rest.length)
        ((List.drop lo (clsSuffixes p s)).reverse)) = _
  rw [firstSome_total _ (fun x => Option.isSome_some)]
  rw [List.head?_reverse, List.getLast?_drop, clsSuffixes_length, clsSuffixes_getLast]
  by_cases h : lo ≤ (s.takeWhile p).length
  · rw [if_neg (by omega), if_pos h]
    have hle : (s.takeWhile p).length ≤ s.length :=
      (List.takeWhile_sublist p).length_le
    show some (s.length - (s.drop ((s.takeWhile p).length)).length) =
      some ((s.takeWhile p).length)
    congr 1
    rw [List.length_drop]
    omega
  · rw [if_pos (by omega), if_neg h]
    rfl

/-! ## Digit-run counter lemmas (towards C10) -/

theorem noDigitRun4Aux_mono (s : List Char) :
    ∀ k k', k' ≤ k → noDigitRun4Aux k s = true → noDigitRun4Aux k' s = true := by
  induction s with
  | nil => intro k k' _ _; rfl
  | cons c t ih =>
    intro k k' hkk h
    simp only [noDigitRun4Aux] at h ⊢
    cases hc : c.isDigit
    · simp only [hc, Bool.false_eq_true, if_false] at h ⊢
      exact h
    · simp only [hc, if_true, Bool.and_eq_true, decide_eq_true_eq] at h ⊢
      obtain ⟨h1, h2⟩ := h
      exact ⟨by omega, ih (k + 1) (k' + 1) (by omega) h2⟩

theorem noDigitRun4Aux_drop (s : List Char) :
    ∀ j k, noDigitRun4Aux k s = true → noDigitRun4Aux 0 (s.drop j) = true := by
  induction s with
  | nil => intro j k _; simp [noDigitRun4Aux]
  | cons c t ih =>
    intro j k h
    cases j with
    | zero => exact noDigitRun4Aux_mono (c :: t) k 0 (by omega) h
    | succ j =>
      rw [List.drop_succ_cons]
      simp only [noDigitRun4Aux] at h
      cases hc : c.isDigit
      · simp only [hc, Bool.false_eq_true, if_false] at h
        exact ih j 0 h
      · simp only [hc, if_true, Bool.and_eq_true] at h
        exact ih j (k + 1) h.2

theorem noDigitRun4Aux_take (s : List Char) :
    ∀ n k, noDigitRun4Aux k s = true → noDigitRun4Aux k (s.take n) = true := by
  induction s with
  | nil => intro n k _; simp [noDigitRun4Aux]
  | cons c t ih =>
    intro n k h
    cases n with
    | zero => rfl
    | succ n =>
      rw [List.take_succ_cons]
      simp only [noDigitRun4Aux] at h ⊢
      cases hc : c.isDigit
      · simp only [hc, Bool.false_eq_true, if_false] at h ⊢
        exact ih n 0 h
      · simp only [hc, if_true, Bool.and_eq_true] at h ⊢
        exact ⟨h.1, ih n (k + 1) h.2⟩

theorem noDigitRun4Aux_X4 (k : Nat) (rest : List Char) :
    noDigitRun4Aux k (str "XXXX" ++ rest) = noDigitRun4Aux 0 rest := rfl

theorem noDigitRun4Aux_X8 (k : Nat) (rest : List Char) :
    noDigitRun4Aux k (str "XXXXXXXX" ++ rest) = noDigitRun4Aux 0 rest := rfl

theorem matchLenAt_digitRun4 (s : List Char) :
    matchLenAt digitRun4RE s =
      if 4 ≤ (s.takeWhile isDigitB).length
      then some ((s.takeWhile isDigitB).length) else none :=
  matchLenAt_repCls_greedy isDigitB 4 s

theorem replace1_inv (s : List Char) (k : Nat)
    (h : 4 ≤ (s.takeWhile isDigitB).length ∨ k + (s.takeWhile isDigitB).length ≤ 3) :
    noDigitRun4Aux k (jsReplaceAllRe digitRun4RE (str "XXXX") s) = true := by
  match s with
  | [] =>
    unfold jsReplaceAllRe
    rw [matchLenAt_digitRun4]
    simp only [List.takeWhile_nil, List.length_nil]
    rw [if_neg (by omega)]
    rfl
  | c :: t =>
    unfold jsReplaceAllRe
    rw [matchLenAt_digitRun4]
    by_cases h4 : 4 ≤ ((c :: t).takeWhile isDigitB).length
    · rw [if_pos h4]
      obtain ⟨m, hm⟩ : ∃ m, ((c :: t).takeWhile isDigitB).length = m + 1 :=
        ⟨((c :: t).takeWhile isDigitB).length - 1, by omega⟩
      rw [hm]
      show noDigitRun4Aux k
        (str "XXXX" ++ jsReplaceAllRe digitRun4RE (str "XXXX") ((c :: t).drop (m + 1))) = true
      rw [noDigitRun4Aux_X4]
      exact replace1_inv ((c :: t).drop (m + 1)) 0 (by omega)
    · rw [if_neg h4]
      show noDigitRun4Aux k (c :: jsReplaceAllRe digitRun4RE (str "XXXX") t) = true
      cases hc : c.isDigit
      · have htw : ((c :: t).takeWhile isDigitB).length = 0 := by
          simp [List.takeWhile_cons, isDigitB, hc]
        simp only [noDigitRun4Aux, hc, Bool.false_eq_true, if_false]
        exact replace1_inv t 0 (by omega)
      · have htw : ((c :: t).takeWhile isDigitB).length =
            (t.takeWhile isDigitB).length + 1 := by
          simp [List.takeWhile_cons, isDigitB, hc]
        have hk3 : k + ((c :: t).takeWhile isDigitB).length ≤ 3 := by
          rcases h with h | h
          · omega
          · exact h
        simp only [noDigitRun4Aux, hc, if_true, Bool.and_eq_true, decide_eq_true_eq]
        exact ⟨by omega, replace1_inv t (k + 1) (by omega)⟩
termination_by s.length
decreasing_by
  all_goals simp
  all_goals omega

theorem replace2_pres (s : List Char) (k : Nat)
    (h : noDigitRun4Aux k s = true) :
    noDigitRun4Aux k (jsReplaceAllRe acctTokenRE (str "XXXXXXXX") s) = true := by
  match s with
  | [] =>
    unfold jsReplaceAllRe
    rw [show matchLenAt acctTokenRE ([] : List Char) = none from by decide]
    rfl
  | c :: t =>
    unfold jsReplaceAllRe
    cases hm : matchLenAt acctTokenRE (c :: t) with
    | none =>
      show noDigitRun4Aux k (c :: jsReplaceAllRe acctTokenRE (str "XXXXXXXX") t) = true
      simp only [noDigitRun4Aux] at h ⊢
      cases hc : c.isDigit
      · simp only [hc, Bool.false_eq_true, if_false] at h ⊢
        exact replace2_pres t 0 h
      · simp only [hc, if_true, Bool.and_eq_true, decide_eq_true_eq] at h ⊢
        exact ⟨h.1, replace2_pres t (k + 1) h.2⟩
    | some l =>
      cases l with
      | zero =>
        show noDigitRun4Aux k
          (str "XXXXXXXX" ++ c :: jsReplaceAllRe acctTokenRE (str "XXXXXXXX") t) = true
        rw [noDigitRun4Aux_X8]
        simp only [noDigitRun4Aux] at h ⊢
        cases hc : c.isDigit
        · simp only [hc, Bool.false_eq_true, if_false] at h ⊢
          exact replace2_pres t 0 h
        · simp only [hc, if_true, Bool.and_eq_true, decide_eq_true_eq] at h ⊢
          refine ⟨by omega, replace2_pres t 1 ?_⟩
          exact noDigitRun4Aux_mono t (k + 1) 1 (by omega) h.2
      | succ l =>
        show noDigitRun4Aux k
          (str "XXXXXXXX" ++
            jsReplaceAllRe acctTokenRE (str "XXXXXXXX") ((c :: t).drop (l + 1))) = true
        rw [noDigitRun4Aux_X8]
        exact replace2_pres ((c :: t).drop (l + 1)) 0 (noDigitRun4Aux_drop (c :: t) (l + 1) k h)
termination_by s.length
decreasing_by
  all_goals simp
  all_goals omega

/-- **C10**: for every input text, `anonymizeStatement` returns a
string of length at most 500 that contains no run of four or more
consecutive decimal digits: the digit-run redaction happens before the
account-token redaction and the truncation, and neither later step can
reintroduce a four-digit run. -/
theorem C10_anonymizeStatement_redacts (text : List Char) :
    (anonymizeStatement text).length ≤ 500 ∧
    noDigitRun4 (anonymizeStatement text) = true := by
  constructor
  · exact List.length_take_le 500 _
  · unfold anonymizeStatement jsSubstringTo noDigitRun4
    apply noDigitRun4Aux_take
    apply replace2_pres
    exact replace1_inv text 0 (by omega)

/-! ## Date model: calendar correctness (towards C7) -/

theorem isLeapY_iff (y : Int) :
    isLeapY y = true ↔ (y % 4 = 0 ∧ y % 100 ≠ 0) ∨ y % 400 = 0 := by
  simp [isLeapY]

theorem civilFromDays_named (z : Int) :
    ∃ era doe yoe doy mp d m Y : Int,
      era = (z + 719468) / 146097 ∧
      doe = z + 719468 - era * 146097 ∧
      yoe = (doe - doe / 1460 + doe / 36524 - doe / 146096) / 365 ∧
      doy = doe - (365 * yoe + yoe / 4 - yoe / 100) ∧
      mp = (5 * doy + 2) / 153 ∧
      d = doy - (153 * mp + 2) / 5 + 1 ∧
      m = (if mp < 10 then mp + 3 else mp - 9) ∧
      Y = (if m ≤ 2 then yoe + era * 400 + 1 else yoe + era * 400) ∧
      civilFromDays z = (Y, m, d) :=
  ⟨_, _, _, _, _, _, _, _, rfl, rfl, rfl, rfl, rfl, rfl, rfl, rfl, rfl⟩

theorem daysFromCivil_named (y m d : Int) :
    ∃ y2 era yoe mp doy doe : Int,
      y2 = (if m ≤ 2 then y - 1 else y) ∧
      era = y2 / 400 ∧
      yoe = y2 - era * 400 ∧
      mp = (m + 9) % 12 ∧
      doy = (153 * mp + 2) / 5 + d - 1 ∧
      doe = yoe * 365 + yoe / 4 - yoe / 100 + doy ∧
      daysFromCivil y m d = era * 146097 + doe - 719468 :=
  ⟨_, _, _, _, _, _, rfl, rfl, rfl, rfl, rfl, rfl, rfl⟩

theorem civilFromDays_spec (z era doe yoe doy mp d m Y : Int)
    (h1 : era = (z + 719468) / 146097)
    (h2 : doe = z + 719468 - era * 146097)
    (h3 : yoe = (doe - doe / 1460 + doe / 36524 - doe / 146096) / 365)
    (h4 : doy = doe - (365 * yoe + yoe / 4 - yoe / 100))
    (h5 : mp = (5 * doy + 2) / 153)
    (h6 : d = doy - (153 * mp + 2) / 5 + 1)
    (h7 : m = (if mp < 10 then mp + 3 else mp - 9))
    (h8 : Y = (if m ≤ 2 then yoe + era * 400 + 1 else yoe + era * 400)) :
    civilFromDays z = (Y, m, d) := by
  subst h8 h7 h6 h5 h4 h3 h2 h1
  rfl

set_option maxHeartbeats 4000000 in
theorem doy_bounds (doe yoe : Int) (h0 : 0 ≤ doe) (h1 : doe ≤ 146096)
    (hy : yoe = (doe - doe / 1460 + doe / 36524 - doe / 146096) / 365) :
    0 ≤ doe - (365 * yoe + yoe / 4 - yoe / 100) ∧
    doe - (365 * yoe + yoe / 4 - yoe / 100) ≤ 365 ∧
    (doe - (365 * yoe + yoe / 4 - yoe / 100) = 365 →
      (yoe + 1) % 4 = 0 ∧ ((yoe + 1) % 100 ≠ 0 ∨ (yoe + 1) % 400 = 0)) := by
  have hb0 : 0 ≤ yoe := by omega
  have hb1 : yoe ≤ 399 := by omega
  have hch : 365 * yoe ≤ doe - doe / 1460 + doe / 36524 - doe / 146096 ∧
      doe - doe / 1460 + doe / 36524 - doe / 146096 < 365 * yoe + 365 := by omega
  clear hy
  interval_cases yoe <;> omega

set_option maxHeartbeats 4000000 in
theorem yoe_recovery (yoe doy doe : Int) (h0 : 0 ≤ yoe) (h1 : yoe ≤ 399)
    (h2 : 0 ≤ doy) (h3 : doy ≤ 365)
    (h4 : doy = 365 → (yoe + 1) % 4 = 0 ∧ ((yoe + 1) % 100 ≠ 0 ∨ (yoe + 1) % 400 = 0))
    (hdoe : doe = 365 * yoe + yoe / 4 - yoe / 100 + doy) :
    0 ≤ doe ∧ doe ≤ 146096 ∧
    (doe - doe / 1460 + doe / 36524 - doe / 146096) / 365 = yoe := by
  interval_cases yoe <;> omega

theorem mp_of_doy (doy mp d : Int) (h0 : 0 ≤ doy) (h1 : doy ≤ 365)
    (hmp : mp = (5 * doy + 2) / 153) (hd : d = doy - (153 * mp + 2) / 5 + 1) :
    0 ≤ mp ∧ mp ≤ 11 ∧ 1 ≤ d ∧ d ≤ 31 ∧
    ((mp = 1 ∨ mp = 3 ∨ mp = 6 ∨ mp = 8) → d ≤ 30) ∧
    (mp = 11 → d ≤ 29 ∧ (d = 29 → doy = 365)) := by
  omega

theorem mp_recovery (mp d doy : Int) (h0 : 0 ≤ mp) (h1 : mp ≤ 11)
    (hd1 : 1 ≤ d) (hd2 : d ≤ 31)
    (h30 : mp = 1 ∨ mp = 3 ∨ mp = 6 ∨ mp = 8 → d ≤ 30)
    (hfeb : mp = 11 → d ≤ 29)
    (hdoy : doy = (153 * mp + 2) / 5 + d - 1) :
    (5 * doy + 2) / 153 = mp ∧ 0 ≤ doy ∧ doy ≤ 365 ∧
    (doy = 365 → mp = 11 ∧ d = 29) := by
  have hcase : mp = 0 ∨ mp = 1 ∨ mp = 2 ∨ mp = 3 ∨ mp = 4 ∨ mp = 5 ∨ mp = 6 ∨
      mp = 7 ∨ mp = 8 ∨ mp = 9 ∨ mp = 10 ∨ mp = 11 := by omega
  rcases hcase with h | h | h | h | h | h | h | h | h | h | h | h <;> subst h <;> omega

/-! ## Date model: decimal formatting -/

theorem isDigit_toNat (c : Char) (h : c.isDigit = true) :
    48 ≤ c.toNat ∧ c.toNat ≤ 57 := by
  simp [Char.isDigit] at h
  exact h

theorem isDigit_ne_plus (c : Char) (h : c.isDigit = true) : c ≠ '+' := by
  rintro rfl; simp at h

theorem isDigit_ne_minus (c : Char) (h : c.isDigit = true) : c ≠ '-' := by
  rintro rfl; simp at h

theorem digit_char_spec (k : Nat) (hk : k < 10) :
    (Char.ofNat ('0'.toNat + k)).isDigit = true ∧
    (Char.ofNat ('0'.toNat + k)).toNat = '0'.toNat + k := by
  interval_cases k <;> exact ⟨by decide, by decide⟩

theorem padDigits_length (w n : Nat) : (padDigits w n).length = w := by
  induction w generalizing n with
  | zero => rfl
  | succ w ih => simp [padDigits, ih]

theorem padDigits_digits (w n : Nat) : ∀ c ∈ padDigits w n, c.isDigit = true := by
  induction w generalizing n with
  | zero => intro c hc; simp [padDigits] at hc
  | succ w ih =>
    intro c hc
    simp only [padDigits, List.mem_append, List.mem_singleton] at hc
    rcases hc with hc | hc
    · exact ih _ c hc
    · subst hc; exact (digit_char_spec (n % 10) (Nat.mod_lt _ (by omega))).1

theorem digitsVal_append (l : List Char) (c : Char) :
    digitsVal (l ++ [c]) = digitsVal l * 10 + (c.toNat - '0'.toNat) := by
  simp [digitsVal, List.foldl_append]

theorem padDigits_val (w n : Nat) : digitsVal (padDigits w n) = n % 10 ^ w := by
  induction w generalizing n with
  | zero => simp [padDigits, digitsVal, Nat.mod_one]
  | succ w ih =>
    rw [padDigits, digitsVal_append, ih,
      (digit_char_spec (n % 10) (Nat.mod_lt _ (by omega))).2]
    have h2 : n % 10 ^ (w + 1) = n % 10 + 10 * (n / 10 % 10 ^ w) := by
      rw [pow_succ', Nat.mod_mul]
    have h0 : '0'.toNat = 48 := rfl
    generalize n / 10 % 10 ^ w = q at *
    omega

theorem padDigits_digitsVal (l : List Char) (hd : ∀ c ∈ l, c.isDigit = true) :
    padDigits l.length (digitsVal l) = l := by
  induction l using List.reverseRecOn with
  | nil => rfl
  | append_singleton t c ih =>
    have hct := isDigit_toNat c (hd c (by simp))
    have h0 : '0'.toNat = 48 := rfl
    rw [List.length_append, List.length_singleton, padDigits, digitsVal_append]
    have hdiv : (digitsVal t * 10 + (c.toNat - '0'.toNat)) / 10 = digitsVal t := by
      omega
    have hmod : (digitsVal t * 10 + (c.toNat - '0'.toNat)) % 10 = c.toNat - 48 := by
      omega
    rw [hdiv, hmod, ih (fun x hx => hd x (by simp [hx]))]
    rw [show '0'.toNat + (c.toNat - 48) = c.toNat from by omega, Char.ofNat_toNat]

theorem list_len2 (l : List Char) (h : l.length = 2) : ∃ a b, l = [a, b] := by
  rcases l with _ | ⟨a, _ | ⟨b, _ | ⟨c, t⟩⟩⟩
  · simp at h
  · simp at h
  · exact ⟨a, b, rfl⟩
  · simp [List.length_cons] at h

/-! ## Date model: range of parsed values -/

theorem parseIsoTail_range (y : Int) (rest : List Char) (z : Int)
    (h : parseIsoTail y rest = some z) : -jsMaxDays ≤ z ∧ z ≤ jsMaxDays := by
  unfold parseIsoTail at h
  split at h
  · split_ifs at h with h1
    simp only [] at h
    split_ifs at h with h2 h3
    injection h with h
    subst h
    exact h3
  · exact absurd h (by simp)

theorem jsDateParseYear_range (w : Nat) (sign : Int) (s : List Char) (z : Int)
    (h : jsDateParseYear w sign s = some z) : -jsMaxDays ≤ z ∧ z ≤ jsMaxDays := by
  unfold jsDateParseYear at h
  split_ifs at h with h1 h2
  exact parseIsoTail_range _ _ _ h

theorem jsDateParse_range (s : List Char) (z : Int) (h : jsDateParse s = some z) :
    -jsMaxDays ≤ z ∧ z ≤ jsMaxDays := by
  unfold jsDateParse at h
  split at h
  · exact absurd h (by simp)
  · split_ifs at h <;> exact jsDateParseYear_range _ _ _ _ h

theorem mkDateDays_range (a b c : Option Int) (z : Int)
    (h : mkDateDays a b c = some z) : -jsMaxDays ≤ z ∧ z ≤ jsMaxDays := by
  unfold mkDateDays at h
  split at h
  · simp only [] at h
    split_ifs at h with hy hr hr2
    all_goals (injection h with h; subst h; assumption)
  · exact absurd h (by simp)

theorem normalizeDateParts_range (s : List Char) (z : Int)
    (h : normalizeDateParts s = some z) : -jsMaxDays ≤ z ∧ z ≤ jsMaxDays := by
  unfold normalizeDateParts at h
  simp only [] at h
  split_ifs at h with h1
  exact mkDateDays_range _ _ _ _ h

/-! ## Date model: the civil round trips -/

/- Minimal-context arithmetic steps, separated so that each `omega`
sees only the facts it needs. -/

theorem era_bounds (z era doe : Int) (h1 : era = (z + 719468) / 146097)
    (h2 : doe = z + 719468 - era * 146097) : 0 ≤ doe ∧ doe ≤ 146096 := by
  omega

theorem yoe_bounds (doe yoe : Int) (h3 : yoe = (doe - doe / 1460 + doe / 36524 - doe / 146096) / 365)
    (h0 : 0 ≤ doe) (h1 : doe ≤ 146096) : 0 ≤ yoe ∧ yoe ≤ 399 := by
  omega

theorem era_recover (era' y2' yoe era : Int) (hg : era' = y2' / 400)
    (hy : y2' = yoe + era * 400) (h0 : 0 ≤ yoe) (h1 : yoe ≤ 399) : era' = era := by
  omega

theorem mp_transfer (mp' m mp : Int) (hg : mp' = (m + 9) % 12)
    (hm : (mp < 10 ∧ m = mp + 3) ∨ (10 ≤ mp ∧ m = mp - 9))
    (h0 : 0 ≤ mp) (h1 : mp ≤ 11) : mp' = mp := by
  rcases hm with ⟨hc, he⟩ | ⟨hc, he⟩ <;> omega

theorem mp_transfer_back (mp m : Int) (hg : mp = (m + 9) % 12)
    (hm1 : 1 ≤ m) (hm2 : m ≤ 12) :
    (m ≤ 2 ∧ mp = m + 9) ∨ (3 ≤ m ∧ mp = m - 3) := by
  omega

theorem yoe_recover (yoe' y2' era' yoe era : Int) (g3 : yoe' = y2' - era' * 400)
    (hy : y2' = yoe + era * 400) (he : era' = era) : yoe' = yoe := by
  omega

theorem doy_transfer (doy' mp' d mp doy : Int)
    (g5 : doy' = (153 * mp' + 2) / 5 + d - 1)
    (hmp : mp' = mp) (h6 : d = doy - (153 * mp + 2) / 5 + 1) : doy' = doy := by
  subst hmp h6 g5
  ring

theorem doe_transfer (doe' yoe' doy' yoe doy doe : Int)
    (g6 : doe' = yoe' * 365 + yoe' / 4 - yoe' / 100 + doy')
    (hy : yoe' = yoe) (hd : doy' = doy)
    (h4 : doy = doe - (365 * yoe + yoe / 4 - yoe / 100)) : doe' = doe := by
  subst hy hd g6
  omega

theorem final_z (era' doe' era doe z : Int) (he : era' = era) (hd : doe' = doe)
    (h1 : era = (z + 719468) / 146097) (h2 : doe = z + 719468 - era * 146097) :
    era' * 146097 + doe' - 719468 = z := by
  subst he hd h2
  ring

theorem m_bounds (mp m : Int)
    (hm : (mp < 10 ∧ m = mp + 3) ∨ (10 ≤ mp ∧ m = mp - 9))
    (h0 : 0 ≤ mp) (h1 : mp ≤ 11) : 1 ≤ m ∧ m ≤ 12 := by
  rcases hm with ⟨hc, he⟩ | ⟨hc, he⟩ <;> omega

theorem leap_transfer (Y yoe era : Int) (hYe : Y = yoe + era * 400 + 1)
    (hleap : (yoe + 1) % 4 = 0 ∧ ((yoe + 1) % 100 ≠ 0 ∨ (yoe + 1) % 400 = 0)) :
    (Y % 4 = 0 ∧ Y % 100 ≠ 0) ∨ Y % 400 = 0 := by
  subst hYe
  omega

set_option maxHeartbeats 1000000 in
theorem civilFromDays_correct (z : Int) :
    daysFromCivil (civilFromDays z).1 (civilFromDays z).2.1 (civilFromDays z).2.2 = z ∧
    1 ≤ (civilFromDays z).2.1 ∧ (civilFromDays z).2.1 ≤ 12 ∧
    1 ≤ (civilFromDays z).2.2 ∧
    (civilFromDays z).2.2 ≤ daysInMonthI (civilFromDays z).1 (civilFromDays z).2.1 := by
  obtain ⟨era, doe, yoe, doy, mp, d, m, Y, h1, h2, h3, h4, h5, h6, h7, h8, hcv⟩ :=
    civilFromDays_named z
  rw [hcv]
  dsimp only
  have hm : (mp < 10 ∧ m = mp + 3) ∨ (10 ≤ mp ∧ m = mp - 9) := by
    by_cases hc : mp < 10
    · exact Or.inl ⟨hc, by rw [h7, if_pos hc]⟩
    · exact Or.inr ⟨by omega, by rw [h7, if_neg hc]⟩
  have hY : (m ≤ 2 ∧ Y = yoe + era * 400 + 1) ∨ (2 < m ∧ Y = yoe + era * 400) := by
    by_cases hc : m ≤ 2
    · exact Or.inl ⟨hc, by rw [h8, if_pos hc]⟩
    · exact Or.inr ⟨by omega, by rw [h8, if_neg hc]⟩
  clear h7 h8 hcv
  obtain ⟨hdoe1, hdoe2⟩ := era_bounds z era doe h1 h2
  obtain ⟨hyoe1, hyoe2⟩ := yoe_bounds doe yoe h3 hdoe1 hdoe2
  have hdb := doy_bounds doe yoe hdoe1 hdoe2 h3
  have hdoy1 : 0 ≤ doy := by omega
  have hdoy2 : doy ≤ 365 := by omega
  obtain ⟨hmp0, hmp11, hd1, hd31, h30, hfeb⟩ := mp_of_doy doy mp d hdoy1 hdoy2 h5 h6
  obtain ⟨y2', era', yoe', mp', doy', doe', g1, g2, g3, g4, g5, g6, hdf⟩ :=
    daysFromCivil_named Y m d
  have hy2 : y2' = yoe + era * 400 := by
    rcases hY with ⟨hc, hYe⟩ | ⟨hc, hYe⟩
    · rw [g1, if_pos hc, hYe]; ring
    · rw [g1, if_neg (by omega), hYe]
  clear g1
  have hera' : era' = era := era_recover era' y2' yoe era g2 hy2 hyoe1 hyoe2
  have hyoe' : yoe' = yoe := yoe_recover yoe' y2' era' yoe era g3 hy2 hera'
  have hmp' : mp' = mp := mp_transfer mp' m mp g4 hm hmp0 hmp11
  have hdoy' : doy' = doy := doy_transfer doy' mp' d mp doy g5 hmp' h6
  have hdoe' : doe' = doe := doe_transfer doe' yoe' doy' yoe doy doe g6 hyoe' hdoy' h4
  refine ⟨?_, ?_, ?_, ?_, ?_⟩
  · rw [hdf]
    exact final_z era' doe' era doe z hera' hdoe' h1 h2
  · exact (m_bounds mp m hm hmp0 hmp11).1
  · exact (m_bounds mp m hm hmp0 hmp11).2
  · exact hd1
  · unfold daysInMonthI
    by_cases hm2 : m = 2
    · rw [if_pos hm2]
      have hmp11' : mp = 11 := by rcases hm with ⟨hc, he⟩ | ⟨hc, he⟩ <;> omega
      by_cases hl : isLeapY Y = true
      · rw [if_pos hl]
        have := hfeb hmp11'
        omega
      · rw [if_neg hl]
        by_contra hcon
        have hd29 : d = 29 := by omega
        have hdoy365 : doy = 365 := (hfeb hmp11').2 hd29
        have hpre : doe - (365 * yoe + yoe / 4 - yoe / 100) = 365 := by
          rw [← h4]
          exact hdoy365
        have hleap := hdb.2.2 hpre
        have hYe : Y = yoe + era * 400 + 1 := by
          rcases hY with ⟨_, he⟩ | ⟨hc, _⟩
          · exact he
          · exact absurd hm2 (by omega)
        exact hl ((isLeapY_iff Y).mpr (leap_transfer Y yoe era hYe hleap))
    · rw [if_neg hm2]
      by_cases h4m : m = 4 ∨ m = 6 ∨ m = 9 ∨ m = 11
      · have hb : (decide (m = 4) || decide (m = 6) || decide (m = 9) ||
            decide (m = 11)) = true := by
          rcases h4m with h | h | h | h <;> simp [h]
        rw [if_pos hb]
        have hmpv : mp = 1 ∨ mp = 3 ∨ mp = 6 ∨ mp = 8 := by
          rcases hm with ⟨hc, he⟩ | ⟨hc, he⟩ <;> omega
        exact h30 hmpv
      · have hb : ¬ ((decide (m = 4) || decide (m = 6) || decide (m = 9) ||
            decide (m = 11)) = true) := by
          simp only [Bool.or_eq_true, decide_eq_true_eq]
          tauto
        rw [if_neg hb]
        omega

set_option maxHeartbeats 1000000 in
theorem daysFromCivil_civilFromDays (y m d : Int) (hm1 : 1 ≤ m) (hm2 : m ≤ 12)
    (hd1 : 1 ≤ d) (hd2 : d ≤ daysInMonthI y m) :
    civilFromDays (daysFromCivil y m d) = (y, m, d) := by
  obtain ⟨y2, era, yoe, mp, doy, doe, g1, g2, g3, g4, g5, g6, hdf⟩ :=
    daysFromCivil_named y m d
  rw [hdf]
  have hmpm := mp_transfer_back mp m g4 hm1 hm2
  have hy2v : (m ≤ 2 ∧ y2 = y - 1) ∨ (2 < m ∧ y2 = y) := by
    by_cases hc : m ≤ 2
    · exact Or.inl ⟨hc, by rw [g1, if_pos hc]⟩
    · exact Or.inr ⟨by omega, by rw [g1, if_neg hc]⟩
  clear g1
  have hyoe1 : 0 ≤ yoe := by omega
  have hyoe2 : yoe ≤ 399 := by omega
  have hmp0 : 0 ≤ mp := by omega
  have hmp11 : mp ≤ 11 := by omega
  have hcap : d ≤ 31 ∧ ((mp = 1 ∨ mp = 3 ∨ mp = 6 ∨ mp = 8) → d ≤ 30) ∧
      (mp = 11 → d ≤ 29) ∧
      (mp = 11 → d = 29 →
        (yoe + 1) % 4 = 0 ∧ ((yoe + 1) % 100 ≠ 0 ∨ (yoe + 1) % 400 = 0)) := by
    unfold daysInMonthI at hd2
    by_cases hm2' : m = 2
    · rw [if_pos hm2'] at hd2
      have hy2e : y2 = y - 1 := by
        rcases hy2v with ⟨_, he⟩ | ⟨hc, _⟩
        · exact he
        · omega
      by_cases hl : isLeapY y = true
      · rw [if_pos hl] at hd2
        have hly := (isLeapY_iff y).mp hl
        exact ⟨by omega, by omega, by omega, fun _ _ => by omega⟩
      · rw [if_neg hl] at hd2
        exact ⟨by omega, by omega, by omega, fun _ h29 => by omega⟩
    · rw [if_neg hm2'] at hd2
      have hmpne : mp ≠ 11 := by rcases hmpm with ⟨hc, he⟩ | ⟨hc, he⟩ <;> omega
      by_cases h4m : m = 4 ∨ m = 6 ∨ m = 9 ∨ m = 11
      · have hb : (decide (m = 4) || decide (m = 6) || decide (m = 9) ||
            decide (m = 11)) = true := by
          rcases h4m with h | h | h | h <;> simp [h]
        rw [if_pos hb] at hd2
        exact ⟨by omega, fun _ => by omega, fun h => absurd h hmpne,
               fun h => absurd h hmpne⟩
      · have hb : ¬ ((decide (m = 4) || decide (m = 6) || decide (m = 9) ||
            decide (m = 11)) = true) := by
          simp only [Bool.or_eq_true, decide_eq_true_eq]
          tauto
        rw [if_neg hb] at hd2
        have h30' : (mp = 1 ∨ mp = 3 ∨ mp = 6 ∨ mp = 8) → d ≤ 30 := by
          intro hmpv
          exfalso
          rcases hmpm with ⟨hc, he⟩ | ⟨hc, he⟩ <;>
            exact h4m (by omega)
        exact ⟨hd2, h30', fun h => absurd h hmpne, fun h => absurd h hmpne⟩
  have hmprec := mp_recovery mp d doy hmp0 hmp11 hd1 hcap.1 hcap.2.1 hcap.2.2.1 g5
  have hyrec := yoe_recovery yoe doy doe hyoe1 hyoe2 (by omega) (by omega)
      (fun h365 => hcap.2.2.2 (hmprec.2.2.2 h365).1 (hmprec.2.2.2 h365).2) (by omega)
  refine civilFromDays_spec (era * 146097 + doe - 719468) era doe yoe doy mp d m y
      ?_ ?_ ?_ ?_ ?_ ?_ ?_ ?_
  · omega
  · omega
  · omega
  · omega
  · omega
  · omega
  · rcases hmpm with ⟨hc, he⟩ | ⟨hc, he⟩
    · rw [if_neg (by omega)]
      omega
    · rw [if_pos (by omega)]
      omega
  · rcases hmpm with ⟨hc, _⟩ | ⟨hc, _⟩
    · rw [if_pos hc]
      have hy2e : y2 = y - 1 := by
        rcases hy2v with ⟨_, he⟩ | ⟨hc2, _⟩
        · exact he
        · omega
      omega
    · rw [if_neg (by omega)]
      have hy2e : y2 = y := by
        rcases hy2v with ⟨hc2, _⟩ | ⟨_, he⟩
        · omega
        · exact he
      omega

theorem civilFromDays_year_bound (z : Int) (h1 : -100000000 ≤ z)
    (h2 : z ≤ 100000000) :
    -280000 ≤ (civilFromDays z).1 ∧ (civilFromDays z).1 ≤ 280000 := by
  obtain ⟨era, doe, yoe, doy, mp, d, m, Y, g1, g2, g3, g4, g5, g6, g7, g8, hcv⟩ :=
    civilFromDays_named z
  rw [hcv]
  dsimp only
  have hY : Y = yoe + era * 400 + 1 ∨ Y = yoe + era * 400 := by
    rw [g8]
    by_cases hc : m ≤ 2
    · exact Or.inl (by rw [if_pos hc])
    · exact Or.inr (by rw [if_neg hc])
  clear g8 g7 hcv g5 g6
  obtain ⟨hdoe1, hdoe2⟩ := era_bounds z era doe g1 g2
  obtain ⟨hyoe1, hyoe2⟩ := yoe_bounds doe yoe g3 hdoe1 hdoe2
  rcases hY with hYe | hYe <;> omega

/-! ## Date model: the parse/print round trip -/

theorem daysInMonthI_le (y m : Int) : 28 ≤ daysInMonthI y m ∧ daysInMonthI y m ≤ 31 := by
  unfold daysInMonthI
  split_ifs <;> omega

theorem parseIsoTail_ok (Y m d : Int) (hm1 : 1 ≤ m) (hm2 : m ≤ 12) (hd1 : 1 ≤ d)
    (hd2 : d ≤ daysInMonthI Y m) (hz1 : -jsMaxDays ≤ daysFromCivil Y m d)
    (hz2 : daysFromCivil Y m d ≤ jsMaxDays) :
    parseIsoTail Y ('-' :: padDigits 2 m.toNat ++ '-' :: padDigits 2 d.toNat) =
      some (daysFromCivil Y m d) := by
  obtain ⟨m1, m2, hm12⟩ := list_len2 (padDigits 2 m.toNat) (padDigits_length 2 m.toNat)
  obtain ⟨d1, d2, hd12⟩ := list_len2 (padDigits 2 d.toNat) (padDigits_length 2 d.toNat)
  have hmdig : ∀ c ∈ [m1, m2], c.isDigit = true := by
    rw [← hm12]; exact padDigits_digits 2 m.toNat
  have hddig : ∀ c ∈ [d1, d2], c.isDigit = true := by
    rw [← hd12]; exact padDigits_digits 2 d.toNat
  have hmv : ((digitsVal [m1, m2] : Nat) : Int) = m := by
    rw [← hm12, padDigits_val]
    have : m.toNat % 10 ^ 2 = m.toNat := Nat.mod_eq_of_lt (by omega)
    rw [this]
    exact Int.toNat_of_nonneg (by omega)
  have hdv : ((digitsVal [d1, d2] : Nat) : Int) = d := by
    rw [← hd12, padDigits_val]
    have hle := daysInMonthI_le Y m
    have : d.toNat % 10 ^ 2 = d.toNat := Nat.mod_eq_of_lt (by omega)
    rw [this]
    exact Int.toNat_of_nonneg (by omega)
  rw [hm12, hd12]
  show parseIsoTail Y ('-' :: m1 :: m2 :: '-' :: d1 :: d2 :: []) = _
  simp only [parseIsoTail]
  rw [if_pos ⟨trivial, trivial, hmdig m1 (by simp), hmdig m2 (by simp),
              hddig d1 (by simp), hddig d2 (by simp)⟩]
  rw [hmv, hdv, if_pos ⟨hm1, hm2, hd1, hd2⟩, if_pos ⟨hz1, hz2⟩]

theorem jsDateParseYear_eval (w : Nat) (sign : Int) (n : Nat) (rest : List Char)
    (hn : n < 10 ^ w)
    (hnz : ¬ (sign < 0 ∧ (n : Int) = 0)) :
    jsDateParseYear w sign (padDigits w n ++ rest) = parseIsoTail (sign * n) rest := by
  have htake : (padDigits w n ++ rest).take w = padDigits w n :=
    List.take_left' (padDigits_length w n)
  have hdrop : (padDigits w n ++ rest).drop w = rest :=
    List.drop_left' (padDigits_length w n)
  have hval : digitsVal (padDigits w n) = n := by
    rw [padDigits_val]
    exact Nat.mod_eq_of_lt hn
  unfold jsDateParseYear
  rw [htake, hdrop, hval]
  rw [if_pos ⟨padDigits_length w n, List.all_eq_true.mpr (padDigits_digits w n)⟩,
      if_neg hnz]

theorem jsDateParse_minus (rest : List Char) :
    jsDateParse ('-' :: rest) = jsDateParseYear 6 (-1) rest := rfl

theorem jsDateParse_plus (rest : List Char) :
    jsDateParse ('+' :: rest) = jsDateParseYear 6 1 rest := rfl

theorem jsDateParse_digitHead (c : Char) (rest : List Char) (h : c.isDigit = true) :
    jsDateParse (c :: rest) = jsDateParseYear 4 1 (c :: rest) := by
  simp only [jsDateParse]
  rw [if_neg (isDigit_ne_plus c h), if_neg (isDigit_ne_minus c h)]

set_option maxHeartbeats 1000000 in
theorem jsDateParse_isoOfDay (z : Int) (h1 : -jsMaxDays ≤ z) (h2 : z ≤ jsMaxDays) :
    jsDateParse (isoOfDay z) = some z := by
  obtain ⟨hrt, hm1, hm2, hd1, hd2⟩ := civilFromDays_correct z
  obtain ⟨hyb1, hyb2⟩ := civilFromDays_year_bound z h1 h2
  simp only [isoOfDay]
  set y := (civilFromDays z).1 with hy
  set m := (civilFromDays z).2.1 with hm
  set d := (civilFromDays z).2.2 with hd
  by_cases hneg : y < 0
  · rw [if_pos hneg]
    rw [jsDateParse_minus]
    rw [jsDateParseYear_eval 6 (-1) (-y).toNat _ (by omega)
        (by rintro ⟨_, hh⟩; omega)]
    have hyy : (-1 : Int) * ((-y).toNat : Int) = y := by
      have := Int.toNat_of_nonneg (by omega : (0:Int) ≤ -y)
      omega
    rw [hyy]
    rw [parseIsoTail_ok y m d hm1 hm2 hd1 hd2 (by rw [hrt]; exact h1) (by rw [hrt]; exact h2), hrt]
  · by_cases hbig : y ≤ 9999
    · rw [if_neg hneg, if_pos hbig]
      have hp4 : padDigits 4 y.toNat ≠ [] := by
        intro hnil
        have := padDigits_length 4 y.toNat
        rw [hnil] at this
        simp at this
      obtain ⟨c, t, hct⟩ := List.exists_cons_of_ne_nil hp4
      have hcd : c.isDigit = true := padDigits_digits 4 y.toNat c (by rw [hct]; simp)
      rw [hct, List.cons_append, jsDateParse_digitHead c _ hcd,
          ← List.cons_append, ← hct]
      rw [jsDateParseYear_eval 4 1 y.toNat _ (by omega) (by rintro ⟨hh, _⟩; omega)]
      have hyy : (1 : Int) * (y.toNat : Int) = y := by
        have := Int.toNat_of_nonneg (by omega : (0:Int) ≤ y)
        omega
      rw [hyy]
      rw [parseIsoTail_ok y m d hm1 hm2 hd1 hd2 (by rw [hrt]; exact h1) (by rw [hrt]; exact h2), hrt]
    · rw [if_neg hneg, if_neg hbig]
      rw [jsDateParse_plus]
      rw [jsDateParseYear_eval 6 1 y.toNat _ (by omega) (by rintro ⟨hh, _⟩; omega)]
      have hyy : (1 : Int) * (y.toNat : Int) = y := by
        have := Int.toNat_of_nonneg (by omega : (0:Int) ≤ y)
        omega
      rw [hyy]
      rw [parseIsoTail_ok y m d hm1 hm2 hd1 hd2 (by rw [hrt]; exact h1) (by rw [hrt]; exact h2), hrt]

theorem digitsVal_lt (l : List Char) (hd : ∀ c ∈ l, c.isDigit = true) :
    digitsVal l < 10 ^ l.length := by
  induction l using List.reverseRecOn with
  | nil => simp [digitsVal]
  | append_singleton t c ih =>
    have hct := isDigit_toNat c (hd c (by simp))
    have h0 : '0'.toNat = 48 := rfl
    rw [digitsVal_append, List.length_append, List.length_singleton, pow_succ]
    have ht := ih (fun x hx => hd x (by simp [hx]))
    omega

theorem daysFromCivil_small (y m d : Int) (hy1 : 0 ≤ y) (hy2 : y ≤ 9999)
    (hm1 : 1 ≤ m) (hm2 : m ≤ 12) (hd1 : 1 ≤ d) (hd2 : d ≤ 31) :
    -jsMaxDays ≤ daysFromCivil y m d ∧ daysFromCivil y m d ≤ jsMaxDays := by
  obtain ⟨y2, era, yoe, mp, doy, doe, g1, g2, g3, g4, g5, g6, hdf⟩ :=
    daysFromCivil_named y m d
  rw [hdf]
  have hy2v : y2 = y - 1 ∨ y2 = y := by
    rw [g1]
    by_cases hc : m ≤ 2
    · exact Or.inl (by rw [if_pos hc])
    · exact Or.inr (by rw [if_neg hc])
  unfold jsMaxDays
  rcases hy2v with he | he <;> omega

theorem isoOfDay_of_form (s : List Char) (h : isIsoDateForm s = true) :
    ∃ z : Int, jsDateParse s = some z ∧ isoOfDay z = s ∧
      -jsMaxDays ≤ z ∧ z ≤ jsMaxDays := by
  revert h
  rcases s with _ | ⟨y1, _ | ⟨y2, _ | ⟨y3, _ | ⟨y4, _ | ⟨s5, _ | ⟨m1, _ | ⟨m2, _ |
      ⟨s8, _ | ⟨d1, _ | ⟨d2, _ | ⟨e, t⟩⟩⟩⟩⟩⟩⟩⟩⟩⟩⟩ <;>
    first
    | exact fun h => Bool.noConfusion h
    | intro h
  simp only [isIsoDateForm, Bool.and_eq_true, decide_eq_true_eq, and_assoc] at h
  obtain ⟨hsep1, hsep2, hy1d, hy2d, hy3d, hy4d, hm1d, hm2d, hd1d, hd2d,
      hva, hvb, hvc, hvd⟩ := h
  subst hsep1 hsep2
  have hydig : ∀ c ∈ [y1, y2, y3, y4], c.isDigit = true := by
    intro c hc
    simp only [List.mem_cons, List.not_mem_nil, or_false] at hc
    rcases hc with rfl | rfl | rfl | rfl <;> assumption
  have hmdig : ∀ c ∈ [m1, m2], c.isDigit = true := by
    intro c hc
    simp only [List.mem_cons, List.not_mem_nil, or_false] at hc
    rcases hc with rfl | rfl <;> assumption
  have hddig : ∀ c ∈ [d1, d2], c.isDigit = true := by
    intro c hc
    simp only [List.mem_cons, List.not_mem_nil, or_false] at hc
    rcases hc with rfl | rfl <;> assumption
  set yv : Int := ((digitsVal [y1, y2, y3, y4] : Nat) : Int) with hyv
  set mv : Int := ((digitsVal [m1, m2] : Nat) : Int) with hmv
  set dv : Int := ((digitsVal [d1, d2] : Nat) : Int) with hdv
  have hyb : 0 ≤ yv ∧ yv ≤ 9999 := by
    constructor
    · exact Int.natCast_nonneg _
    · have h4 : digitsVal [y1, y2, y3, y4] < 10 ^ 4 := digitsVal_lt [y1, y2, y3, y4] hydig
      rw [hyv]
      omega
  have hdb31 : dv ≤ 31 := le_trans hvd (daysInMonthI_le yv mv).2
  have hrange := daysFromCivil_small yv mv dv hyb.1 hyb.2 hva hvb hvc hdb31
  refine ⟨daysFromCivil yv mv dv, ?_, ?_, hrange.1, hrange.2⟩
  · rw [jsDateParse_digitHead y1 _ hy1d]
    unfold jsDateParseYear
    rw [show ([y1, y2, y3, y4, '-', m1, m2, '-', d1, d2].take 4) = [y1, y2, y3, y4]
        from rfl]
    rw [show ([y1, y2, y3, y4, '-', m1, m2, '-', d1, d2].drop 4) =
        ['-', m1, m2, '-', d1, d2] from rfl]
    rw [if_pos ⟨rfl, by simp [hy1d, hy2d, hy3d, hy4d]⟩,
        if_neg (by rintro ⟨hh, _⟩; omega)]
    rw [show ((1 : Int) * (digitsVal [y1, y2, y3, y4] : Nat)) = yv from (one_mul _)]
    show parseIsoTail yv ('-' :: m1 :: m2 :: '-' :: d1 :: d2 :: []) = _
    simp only [parseIsoTail]
    rw [if_pos ⟨trivial, trivial, hm1d, hm2d, hd1d, hd2d⟩]
    rw [if_pos ⟨hva, hvb, hvc, hvd⟩, if_pos ⟨hrange.1, hrange.2⟩]
  · have hcv : civilFromDays (daysFromCivil yv mv dv) = (yv, mv, dv) :=
      daysFromCivil_civilFromDays yv mv dv hva hvb hvc hvd
    simp only [isoOfDay]
    rw [hcv]
    dsimp only
    rw [if_neg (by omega), if_pos hyb.2]
    have hy4 : padDigits 4 yv.toNat = [y1, y2, y3, y4] := by
      rw [hyv, Int.toNat_natCast]
      exact padDigits_digitsVal [y1, y2, y3, y4] hydig
    have hm2' : padDigits 2 mv.toNat = [m1, m2] := by
      rw [hmv, Int.toNat_natCast]
      exact padDigits_digitsVal [m1, m2] hmdig
    have hd2' : padDigits 2 dv.toNat = [d1, d2] := by
      rw [hdv, Int.toNat_natCast]
      exact padDigits_digitsVal [d1, d2] hddig
    rw [hy4, hm2', hd2']
    rfl

/-! ## `normalizeDate`: idempotence and fixed points (C7) -/

/-- C7: `normalizeDate` is idempotent: normalizing twice equals normalizing
once; an input already in calendar-valid `YYYY-MM-DD` form is returned
unchanged; and when the direct parse and the parts fallback both fail the
input is returned unchanged.  The direct `new Date(string)` parse `p` is any
engine parse that agrees with the specified interchange-format parse
`jsDateParse` wherever the latter succeeds, and that only produces time
values inside the ECMAScript range. -/
theorem C7_normalizeDate_idempotent (p : List Char → Option Int)
    (hp1 : ∀ s, (jsDateParse s).isSome = true → p s = jsDateParse s)
    (hp2 : ∀ s z, p s = some z → -jsMaxDays ≤ z ∧ z ≤ jsMaxDays) :
    (∀ s, normalizeDate p (normalizeDate p s) = normalizeDate p s) ∧
    (∀ s, isIsoDateForm s = true → normalizeDate p s = s) ∧
    (∀ s, p s = none → normalizeDateParts s = none → normalizeDate p s = s) := by
  have hkey : ∀ z : Int, -jsMaxDays ≤ z → z ≤ jsMaxDays →
      normalizeDate p (isoOfDay z) = isoOfDay z := by
    intro z hz1 hz2
    have hjp : jsDateParse (isoOfDay z) = some z := jsDateParse_isoOfDay z hz1 hz2
    have hps : p (isoOfDay z) = some z := by
      rw [hp1 _ (by rw [hjp]; rfl), hjp]
    unfold normalizeDate
    rw [hps]
  refine ⟨?_, ?_, ?_⟩
  · intro s
    rcases hps : p s with _ | z
    · rcases hparts : normalizeDateParts s with _ | z
      · have hs : normalizeDate p s = s := by
          unfold normalizeDate
          rw [hps, hparts]
        simp only [hs]
      · have hs : normalizeDate p s = isoOfDay z := by
          unfold normalizeDate
          rw [hps, hparts]
        obtain ⟨hz1, hz2⟩ := normalizeDateParts_range s z hparts
        rw [hs]
        exact hkey z hz1 hz2
    · have hs : normalizeDate p s = isoOfDay z := by
        unfold normalizeDate
        rw [hps]
      obtain ⟨hz1, hz2⟩ := hp2 s z hps
      rw [hs]
      exact hkey z hz1 hz2
  · intro s hform
    obtain ⟨z, hjp, hiso, _, _⟩ := isoOfDay_of_form s hform
    have hps : p s = some z := by
      rw [hp1 _ (by rw [hjp]; rfl), hjp]
    unfold normalizeDate
    rw [hps]
    exact hiso
  · intro s hpn hparts
    unfold normalizeDate
    rw [hpn, hparts]

/-- Witness for C7 at concrete inputs, with `p` instantiated to the
conforming parse `jsDateParse`. -/
theorem C7_normalizeDate_idempotent_witness :
    normalizeDate jsDateParse (normalizeDate jsDateParse (str "03/15/2024")) =
      normalizeDate jsDateParse (str "03/15/2024") ∧
    normalizeDate jsDateParse (str "2024-03-15") = str "2024-03-15" ∧
    normalizeDate jsDateParse (str "not a date") = str "not a date" := by
  obtain ⟨ha, hb, hc⟩ := C7_normalizeDate_idempotent jsDateParse
    (fun _ _ => rfl) jsDateParse_range
  exact ⟨ha _, hb _ (by rfl), hc _ (by rfl) (by rfl)⟩


/-! ## The C3 scenario and the C6 sort invariant (refutations) -/

/-- C3 (refuted): on the line `"03/15/2024 STARBUCKS COFFEE -5.75"` the
primary line-pattern strategy produces NO transaction: `line.match(pattern)`
with a global regex returns whole-match strings without capture groups, so
the destructured `date`/`description`/`amount` are all `undefined` and the
guard rejects the line.  The claimed transaction (with the heuristic
category and confidence fields of the fallback) is only produced because
`parseTransactions` falls back to the alternative windowed strategy. -/
theorem C3_primary_strategy_empty :
    parseTransactionsPrimary (fun _ => none) jsDateParse c3Text = [] ∧
    parseTransactions (fun _ => none) jsDateParse c3Text = [c3Tx] := by
  constructor
  · with_unfolding_all rfl
  · with_unfolding_all rfl

/-- C6 (refuted): on `c6Text` the recognizer returns transactions whose
dates run `2025-01-01`, `"1/1/11 a-b 1"`, `2024-01-01` — the first date is
strictly later than the last, so the output is not sorted non-decreasing by
normalized date.  The middle raw string makes `new Date` yield `NaN` and the
comparator returns `NaN` for every pair involving it, so the engine sort
leaves the 2025 entry ahead of the 2024 entry. -/
theorem C6_sort_violated :
    (parseTransactions (fun _ => none) jsDateParse c6Text).map
      ParsedTransaction.date =
      [str "2025-01-01", str "1/1/11 a-b 1", str "2024-01-01"] ∧
    jsDateParse (str "2025-01-01") = some 20089 ∧
    jsDateParse (str "2024-01-01") = some 19723 := by
  refine ⟨?_, ?_, ?_⟩
  · with_unfolding_all rfl
  · with_unfolding_all rfl
  · with_unfolding_all rfl

end PDFStmt
